import Mathlib

/-!
Verification development for the Mango Go SDK's programmable-transaction
pipeline (`mgo-go-sdk`).  Go values are shallowly embedded: byte strings and
Go `string`s are `List Nat` (each element a byte value `< 256`), machine
integers are `Nat` with explicit `% 2 ^ w` at the places where the Go code
performs a narrowing conversion, Go functions that can `panic` or return an
`error` are embedded as `Except Err _` / `Option`, and pointer-or-nil fields
are `Option` fields.  Every definition mirrors a named Go function of the
repository; the source file and symbol are named in its doc comment.
-/

namespace MgoSdk

deriving instance DecidableEq for Except

/-- Error values.  `senderNotSet` … `objectNotSupportType` mirror the
`errors.New` values of `transaction/errors.go`; the `…Panic` constructors
stand for Go runtime panics; the remaining constructors mirror the
`fmt.Errorf` failure messages of the reflective codec (`bcs/encode.go`). -/
inductive Err where
  | signerNotSet
  | senderNotSet
  | mgoClientNotSet
  | gasDataNotAllSet
  | invalidMgoAddress
  | invalidObjectId
  | objectNotSupportType
  | negativeRepeatPanic
  | hexDecodePanic
  | nilDereferencePanic
  | noEnumFieldSet
  | unsupportedKind
  | clientError
  | v1IsNil
  | typeParseError
deriving DecidableEq, Repr

/-- One step of `binary.PutUvarint`, with the 10-byte buffer bound
(`bcs.MaxUleb128Length`) made explicit as fuel; every `uint64` value fits. -/
def ulebAux : Nat → Nat → List Nat
  | 0, _ => []
  | fuel + 1, n => if n < 128 then [n] else (n % 128 + 128) :: ulebAux fuel (n / 128)

/-- Model of `bcs.ULEB128Encode` / `bcs.ULEBEncode` (and `binary.PutUvarint`):
unsigned little-endian base-128 encoding, seven payload bits per byte,
high bit = continuation, at most 10 bytes. -/
def uleb (n : Nat) : List Nat := ulebAux 10 n

/-- Little-endian fixed-width encoding of `n` on `w` bytes
(`binary.Write` with `binary.LittleEndian` on uintN values). -/
def leBytes (w n : Nat) : List Nat :=
  match w with
  | 0 => []
  | w + 1 => n % 256 :: leBytes w (n / 256)

/-- Two-byte LE little-endian (Go `uint16`). -/
def u16le (n : Nat) : List Nat := leBytes 2 n

/-- Eight-byte LE little-endian (Go `uint64`). -/
def u64le (n : Nat) : List Nat := leBytes 8 n

/-- ASCII lowercasing of one byte; `strings.ToLower` restricted to the
ASCII fragment, which is all the SDK ever feeds it. -/
def toLowerByte (b : Nat) : Nat :=
  if 65 ≤ b ∧ b ≤ 90 then b + 32 else b

/-- Byte values of the string `"0x"`. -/
def zeroXBytes : List Nat := [48, 120]

/-- Model of `utils.NormalizeMgoAddress` (utils package): lowercase, strip a leading
`"0x"`, left-pad with `'0'` to 64 characters, re-prefix `"0x"`.  Go's
`strings.Repeat("0", 64-len(addr))` panics when the stripped string is
longer than 64 characters; that panic is the `none` result. -/
def normalizeMgoAddress (s : List Nat) : Option (List Nat) :=
  let addr0 := s.map toLowerByte
  let addr := if zeroXBytes.isPrefixOf addr0 then addr0.drop 2 else addr0
  if addr.length ≤ 64 then
    some (zeroXBytes ++ List.replicate (64 - addr.length) 48 ++ addr)
  else
    none

/-- Model of `utils.IsValidMgoAddress`: normalize, then check length 66 and the
`"0x"` prefix.  (The Go code performs no hexadecimal-digit check.)
`none` propagates the `strings.Repeat` panic out of the normalizer. -/
def isValidMgoAddress (s : List Nat) : Option Bool :=
  (normalizeMgoAddress s).map
    (fun addr => addr.length == 66 && zeroXBytes.isPrefixOf addr)

/-- Value of one ASCII hexadecimal digit byte (`encoding/hex` digit table:
`0-9`, `a-f`, `A-F`). -/
def hexCharVal (c : Nat) : Option Nat :=
  if 48 ≤ c ∧ c ≤ 57 then some (c - 48)
  else if 97 ≤ c ∧ c ≤ 102 then some (c - 87)
  else if 65 ≤ c ∧ c ≤ 70 then some (c - 55)
  else none

/-- Model of `hex.DecodeString`: pairs of hexadecimal digits to bytes; fails on a
non-digit or an odd-length input. -/
def hexDecode : List Nat → Option (List Nat)
  | [] => some []
  | [_] => none
  | c₁ :: c₂ :: rest => do
      let h ← hexCharVal c₁
      let l ← hexCharVal c₂
      let r ← hexDecode rest
      pure ((h * 16 + l) :: r)

/-- Lowercase hexadecimal digit byte for a value `< 16`
(`encoding/hex` encode table). -/
def hexDigitChar (d : Nat) : Nat :=
  if d < 10 then 48 + d else 87 + d

/-- Model of `hex.EncodeToString`: each byte to two lowercase hexadecimal digits. -/
def hexEncode (bs : List Nat) : List Nat :=
  bs.flatMap (fun b => [hexDigitChar (b / 16), hexDigitChar (b % 16)])

/-- Model of `transaction.ConvertMgoAddressStringToBytes` (transaction/convert.go):
normalize, hex-decode the part after `"0x"`, require 32 bytes.  All failure
modes (normalizer panic, hex error, wrong length) collapse to `none`. -/
def convertMgoAddressStringToBytes (s : List Nat) : Option (List Nat) := do
  let normalized ← normalizeMgoAddress s
  let decoded ← hexDecode (normalized.drop 2)
  if decoded.length = 32 then pure decoded else none

/-- Model of `transaction.ConvertMgoAddressBytesToString` (transaction/convert.go):
`"0x"` followed by the lowercase hex of the 32 bytes. -/
def convertMgoAddressBytesToString (addr : List Nat) : List Nat :=
  zeroXBytes ++ hexEncode addr

/-! ## PTB data model (transaction/transaction_data.go)

Go nil-able pointer fields become `Option` fields.  The `IsBcsEnum`-marked
structs keep their struct-of-options shape because the reflective encoder's
first-set-wins scan over the declared fields is part of the behaviour under
verification. -/

/-- Model of `transaction.MgoObjectRef`: (object id, version, digest).  The digest is
Go's `model.ObjectDigestBytes`, a dynamic byte slice. -/
structure MgoObjectRef where
  objectId : List Nat
  version : Nat
  digest : List Nat
deriving DecidableEq, Repr

/-- Model of `transaction.SharedObjectRef`. -/
structure SharedObjectRef where
  objectId : List Nat
  initialSharedVersion : Nat
  mutable : Bool
deriving DecidableEq, Repr

/-- Model of `transaction.ObjectArg` (enum-marked): ImmOrOwnedObject / SharedObject /
Receiving, in declaration order. -/
structure ObjectArg where
  immOrOwnedObject : Option MgoObjectRef
  sharedObject : Option SharedObjectRef
  receiving : Option MgoObjectRef
deriving DecidableEq, Repr

/-- Model of `transaction.CallArg` (enum-marked): Pure / Object / UnresolvedPure /
UnresolvedObject, in declaration order.  `pureBytes` is `Pure.Bytes`;
`unresolvedObject` is `UnresolvedObject.ObjectId`; `unresolvedPure` carries
an opaque JSON map in Go, which the reflective encoder cannot serialize, so
only its presence is modelled. -/
structure CallArg where
  pureBytes : Option (List Nat)
  object : Option ObjectArg
  unresolvedPure : Option Unit
  unresolvedObject : Option (List Nat)
deriving DecidableEq, Repr

/-- Model of `transaction.NestedResult`. -/
structure NestedResult where
  index : Nat
  resultIndex : Nat
deriving DecidableEq, Repr

/-- Model of `transaction.Argument` (enum-marked): GasCoin / Input / Result /
NestedResult, in declaration order.  The Go index fields are `uint16`. -/
structure Argument where
  gasCoin : Option Unit
  input : Option Nat
  result : Option Nat
  nestedResult : Option NestedResult
deriving DecidableEq, Repr

/-- The `Argument{Input: &index}` value produced by `AddInput` and by the
shared-object deduplication hit of `Transaction.Object`. -/
def mkInputArg (i : Nat) : Argument :=
  { gasCoin := none, input := some i, result := none, nestedResult := none }

/-- Model of `transaction.StructTag`, parameterized by the type-tag type so that the
nested recursion with `TypeTag` stays a plain nested inductive. -/
structure StructTagG (τ : Type) where
  address : List Nat
  module : List Nat
  name : List Nat
  typeParams : List τ
deriving DecidableEq, Repr

/-- Model of `transaction.TypeTag` (enum-marked).  Field order is the Go declaration
order: Bool, U8, U128, U256, Address, Signer, Vector, Struct, U16, U32, U64.
The Go primitive variants are non-nil `*bool` pointers, so they carry the
pointed-to boolean, which the reflective encoder serializes as the payload. -/
inductive TypeTag where
  | mk
      (boolTag : Option Bool)
      (u8Tag : Option Bool)
      (u128Tag : Option Bool)
      (u256Tag : Option Bool)
      (addressTag : Option Bool)
      (signerTag : Option Bool)
      (vectorTag : Option TypeTag)
      (structTag : Option (StructTagG TypeTag))
      (u16Tag : Option Bool)
      (u32Tag : Option Bool)
      (u64Tag : Option Bool)
deriving Repr

/-- Model of `transaction.StructTag` with its type parameters instantiated. -/
abbrev StructTag := StructTagG TypeTag

/-- Model of `transaction.ProgrammableMoveCall`. -/
structure ProgrammableMoveCall where
  package : List Nat
  module : List Nat
  function : List Nat
  typeArguments : List TypeTag
  arguments : List (Option Argument)
deriving Repr

/-- Model of `transaction.TransferObjects`.  Go's `Address *Argument` may be nil, in
which case the reflective encoder PANICS (the typed nil passes the `Enum`
assertion). -/
structure TransferObjects where
  objects : List (Option Argument)
  address : Option Argument
deriving Repr

/-- Model of `transaction.SplitCoins`. -/
structure SplitCoins where
  coin : Option Argument
  amount : List (Option Argument)
deriving Repr

/-- Model of `transaction.MergeCoins`. -/
structure MergeCoins where
  destination : Option Argument
  sources : List (Option Argument)
deriving Repr

/-- Model of `transaction.Publish`: modules and dependencies are
`[]model.MgoAddressBytes`. -/
structure Publish where
  modules : List (List Nat)
  dependencies : List (List Nat)
deriving Repr

/-- Model of `transaction.MakeMoveVec`.  `Type *string` carries no `optional` tag, so
a nil pointer encodes to nothing (no flag byte). -/
structure MakeMoveVec where
  typeValue : Option (List Nat)
  elements : List (Option Argument)
deriving Repr

/-- Model of `transaction.Upgrade`. -/
structure Upgrade where
  modules : List (List Nat)
  dependencies : List (List Nat)
  package : List Nat
  ticket : Option Argument
deriving Repr

/-- Model of `transaction.Command` (enum-marked), declaration order: MoveCall,
TransferObjects, SplitCoins, MergeCoins, Publish, MakeMoveVec, Upgrade. -/
structure Command where
  moveCall : Option ProgrammableMoveCall
  transferObjects : Option TransferObjects
  splitCoins : Option SplitCoins
  mergeCoins : Option MergeCoins
  publish : Option Publish
  makeMoveVec : Option MakeMoveVec
  upgrade : Option Upgrade
deriving Repr

/-- Model of `transaction.ProgrammableTransaction`. -/
structure ProgrammableTransaction where
  inputs : List CallArg
  commands : List Command
deriving Repr

/-- Model of `transaction.TransactionKind` (enum-marked).  The ChangeEpoch, Genesis
and ConsensusCommitPrologue fields are untyped `any` slots the SDK never
populates, so only the ProgrammableTransaction variant is modelled. -/
structure TransactionKind where
  programmableTransaction : Option ProgrammableTransaction
deriving Repr

/-- Model of `transaction.GasData`: four nil-able fields. -/
structure GasData where
  payment : Option (List MgoObjectRef)
  owner : Option (List Nat)
  price : Option Nat
  budget : Option Nat
deriving Repr

/-- Model of `transaction.TransactionExpiration`: None (an `any` slot holding the
empty struct when active) then Epoch.  Its `IsBcsEnum` marker has a pointer
receiver, and the encoder only ever reaches the value through the optional
branch's `field.Elem()`, so it is struct-encoded, never enum-encoded. -/
structure TransactionExpiration where
  noneSlot : Option Unit
  epoch : Option Nat
deriving Repr

/-- Model of `transaction.TransactionDataV1`.  `Kind` and `GasData` are pointers the
SDK always populates (`NewTransaction`, `DeserializeFromJSON`); `Sender` and
`Expiration` genuinely alternate between nil and set, so they are options.
`Expiration` carries the `bcs:"optional"` tag. -/
structure TransactionDataV1 where
  kind : TransactionKind
  sender : Option (List Nat)
  gasData : GasData
  expiration : Option TransactionExpiration
deriving Repr

/-- Model of `transaction.TransactionData` as declared in
`transaction/transaction_data.go` (enum-marked, single `V1` field at
declaration index 0).  A second, parallel declaration with a leading `V0`
field exists in the source tree; per the current wire behaviour the V1-only
declaration is the canonical one and is the one embedded here. -/
structure TransactionData where
  v1 : Option TransactionDataV1
deriving Repr

/-- Model of `TransactionDataV1.GetInputObjectIndex`'s per-input id comparison:
the input matches when its Object variant holds an ImmOrOwned, Shared or
Receiving reference whose object id equals the searched bytes
(`MgoAddressBytes.IsEqual`). -/
def callArgMatchesId (c : CallArg) (ab : List Nat) : Bool :=
  match c.object with
  | none => false
  | some oa =>
      (match oa.immOrOwnedObject with
       | some r => r.objectId == ab
       | none => false) ||
      (match oa.sharedObject with
       | some r => r.objectId == ab
       | none => false) ||
      (match oa.receiving with
       | some r => r.objectId == ab
       | none => false)

/-- Index of the first input matching the id, counting from `i`. -/
def findInputIdxFrom (ab : List Nat) : List CallArg → Nat → Option Nat
  | [], _ => none
  | c :: rest, i =>
      if callArgMatchesId c ab then some i else findInputIdxFrom ab rest (i + 1)

/-- Model of `TransactionDataV1.GetInputObjectIndex`: convert the address string to
bytes (`nil` on failure), then linearly scan the inputs; the found position
is narrowed to `uint16`. -/
def getInputObjectIndex (inputs : List CallArg) (address : List Nat) :
    Option Nat :=
  (convertMgoAddressStringToBytes address).bind
    (fun ab => (findInputIdxFrom ab inputs 0).map (fun i => i % 65536))

/-- Model of `TransactionDataV1.AddInput`: append and return
`Argument{Input: uint16(previous length)}`. -/
def addInput (v1 : TransactionDataV1) (c : CallArg) :
    Except Err (Argument × TransactionDataV1) :=
  match v1.kind.programmableTransaction with
  | none => .error .nilDereferencePanic
  | some pt =>
      let pt' : ProgrammableTransaction := { pt with inputs := pt.inputs ++ [c] }
      .ok (mkInputArg (pt.inputs.length % 65536),
        { v1 with kind := { programmableTransaction := some pt' } })

/-- The mutability upgrade inside `Transaction.Object`: re-read the found
input and, when it holds a shared-object reference, overwrite its `Mutable`
flag with `true`.  Out-of-range or object-less entries would be Go nil/index
panics. -/
def upgradeSharedAt (inputs : List CallArg) (i : Nat) :
    Except Err (List CallArg) :=
  match inputs[i]? with
  | none => .error .nilDereferencePanic
  | some c =>
      match c.object with
      | none => .error .nilDereferencePanic
      | some oa =>
          match oa.sharedObject with
          | none => .ok inputs
          | some so =>
              let so' : SharedObjectRef := { so with mutable := true }
              let oa' : ObjectArg := { oa with sharedObject := some so' }
              .ok (inputs.set i { c with object := some oa' })

/-- The three runtime shapes accepted by `Transaction.Object`. -/
inductive ObjectInput where
  | fromString (s : List Nat)
  | fromArgument (a : Argument)
  | fromCallArg (c : CallArg)

/-- Model of `Transaction.Object` (transaction package): strings that pass
`IsValidMgoAddress` become UnresolvedObject inputs; `Argument` values pass
through; a `CallArg` holding a shared-object reference is deduplicated by
object id with a monotone mutability upgrade; owned and receiving
references are always appended; anything else panics with
`ErrObjectNotSupportType`. -/
def transactionObject (v1 : TransactionDataV1) :
    ObjectInput → Except Err (Argument × TransactionDataV1)
  | .fromString s =>
      match normalizeMgoAddress s with
      | none => .error .negativeRepeatPanic
      | some addr =>
          if addr.length == 66 && zeroXBytes.isPrefixOf addr then
            match convertMgoAddressStringToBytes addr with
            | none => .error .hexDecodePanic
            | some ab =>
                addInput v1
                  { pureBytes := none, object := none, unresolvedPure := none,
                    unresolvedObject := some ab }
          else
            .error .objectNotSupportType
  | .fromArgument a => .ok (a, v1)
  | .fromCallArg v =>
      match v.object with
      | none => .error .nilDereferencePanic
      | some oa =>
          match oa.sharedObject with
          | some so =>
              match v1.kind.programmableTransaction with
              | none => .error .nilDereferencePanic
              | some pt =>
                  match getInputObjectIndex pt.inputs
                      (convertMgoAddressBytesToString so.objectId) with
                  | some idx =>
                      if so.mutable then
                        (upgradeSharedAt pt.inputs idx).map (fun inputs' =>
                          let pt' : ProgrammableTransaction := { pt with inputs := inputs' }
                          (mkInputArg idx,
                           { v1 with kind := { programmableTransaction := some pt' } }))
                      else
                        .ok (mkInputArg idx, v1)
                  | none =>
                      addInput v1
                        { pureBytes := none, object := some oa,
                          unresolvedPure := none, unresolvedObject := none }
          | none =>
              if oa.immOrOwnedObject.isSome || oa.receiving.isSome then
                addInput v1
                  { pureBytes := none, object := some oa,
                    unresolvedPure := none, unresolvedObject := none }
              else
                .error .objectNotSupportType

/-- The two runtime shapes reaching `Transaction.Pure`: a Go `string`, or
any other value presented through its reflective SDBE encoding. -/
inductive PureInput where
  | str (s : List Nat)
  | raw (sdbeBytes : List Nat)

/-- Model of `Transaction.Pure`: a string passing `IsValidMgoAddress` is converted to
its 32 raw address bytes (a conversion failure is a `panic(err)`); any other
value is SDBE-encoded — for a string that is the ULEB length prefix followed
by its bytes — and the bytes are appended as a Pure input. -/
def transactionPure (v1 : TransactionDataV1) :
    PureInput → Except Err (Argument × TransactionDataV1)
  | .str s =>
      match isValidMgoAddress s with
      | none => .error .negativeRepeatPanic
      | some true =>
          match convertMgoAddressStringToBytes s with
          | none => .error .hexDecodePanic
          | some ab =>
              addInput v1
                { pureBytes := some ab, object := none,
                  unresolvedPure := none, unresolvedObject := none }
      | some false =>
          addInput v1
            { pureBytes := some (uleb s.length ++ s), object := none,
              unresolvedPure := none, unresolvedObject := none }
  | .raw bs =>
      addInput v1
        { pureBytes := some bs, object := none,
          unresolvedPure := none, unresolvedObject := none }

/-! ## Builder state created by `transaction.NewTransaction` -/

/-- The `TransactionDataV1` value assembled by `transaction.NewTransaction`:
an empty programmable transaction, no sender, empty gas data, no
expiration. -/
def newTransactionDataV1 : TransactionDataV1 :=
  { kind := { programmableTransaction := some { inputs := [], commands := [] } },
    sender := none,
    gasData := { payment := none, owner := none, price := none, budget := none },
    expiration := none }

/-- The `CallArg` shape `Transaction.Object` receives for a shared object:
only the `SharedObject` sub-variant of the `Object` variant is set. -/
def mkSharedCallArg (so : SharedObjectRef) : CallArg :=
  { pureBytes := none,
    object := some { immOrOwnedObject := none, sharedObject := some so,
                     receiving := none },
    unresolvedPure := none, unresolvedObject := none }

/-- A sequence of `Transaction.Object` calls with shared-object call-args,
collecting the returned arguments; any panic aborts the sequence. -/
def objectSeq (v1 : TransactionDataV1) :
    List SharedObjectRef → Except Err (List Argument × TransactionDataV1)
  | [] => .ok ([], v1)
  | r :: rs =>
      match transactionObject v1 (.fromCallArg (mkSharedCallArg r)) with
      | .error e => .error e
      | .ok (a, v1') =>
          match objectSeq v1' rs with
          | .error e => .error e
          | .ok (args, v1'') => .ok (a :: args, v1'')

/-- Whether an input is a shared-object input with the given id. -/
def isSharedInputWithId (c : CallArg) (id : List Nat) : Bool :=
  match c.object with
  | some oa =>
      match oa.sharedObject with
      | some so => so.objectId == id
      | none => false
  | none => false

/-- Number of inputs that are shared-object inputs with the given id. -/
def countSharedInputsWithId (inputs : List CallArg) (id : List Nat) : Nat :=
  inputs.countP (fun c => isSharedInputWithId c id)

/-- Replacing the inputs list of the active programmable transaction —
the only state change `Object` and `Pure` perform. -/
def setInputs (v1 : TransactionDataV1) (pt : ProgrammableTransaction)
    (l : List CallArg) : TransactionDataV1 :=
  { v1 with kind := { programmableTransaction := some { pt with inputs := l } } }

/-! ## SDBE codec (bcs/encode.go)

`Encoder.encodeEnum` scans the declared fields in order and, at the FIRST
non-nil field, emits the ULEB of its index followed by a payload that
depends on the field's reflective kind: a pointer field's payload is the
encoding of the pointed-to value alone (`e.encode(reflect.Indirect(field))`),
but an interface field's payload is `e.encode(v)` — the struct encoding of
the WHOLE enum value, which appends the bytes of every set field, later set
variants included.  It errors only when every field is nil.  Each concrete
tree encoder below is the specialization of the reflective `Encoder.encode`
to one Go type; a field's payload entry is `none` when the Go pointer or
interface is nil. -/

/-- One declared field of an enum struct as `Encoder.encodeEnum` sees it:
whether its reflective kind is interface (rather than pointer), and the
encoding of its content when it is set (`none` when nil). -/
structure EnumField where
  isInterface : Bool
  payload : Option (Except Err (List Nat))

/-- A pointer-kinded enum field with the given content encoding. -/
def ptrField (p : Option (Except Err (List Nat))) : EnumField :=
  { isInterface := false, payload := p }

/-- An interface-kinded enum field with the given content encoding. -/
def ifaceField (p : Option (Except Err (List Nat))) : EnumField :=
  { isInterface := true, payload := p }

/-- Model of `Encoder.encodeStruct` applied to the enum struct value itself (the
`e.encode(v)` an interface-kinded active field re-enters through the
struct case): every field contributes its content encoding when set and
nothing when nil.  (The enums whose declarations contain interface fields —
`Argument`, `TransactionKind` — have no enum-typed pointer fields, so the
nil-pointer case is the silent skip of an invalid indirection here.) -/
def encStructOfEnum : List EnumField → Except Err (List Nat)
  | [] => .ok []
  | f :: rest =>
      match (match f.payload with
             | none => .ok []
             | some p => p : Except Err (List Nat)) with
      | .error e => .error e
      | .ok b =>
          match encStructOfEnum rest with
          | .error e => .error e
          | .ok r => .ok (b ++ r)

/-- Model of `Encoder.encodeEnum`'s scan, carrying the running field index and
the full field list (needed by the interface branch's whole-struct
re-encode). -/
def encodeEnumFrom (i : Nat) (all : List EnumField) :
    List EnumField → Except Err (List Nat)
  | [] => .error .noEnumFieldSet
  | f :: rest =>
      match f.payload with
      | none => encodeEnumFrom (i + 1) all rest
      | some p =>
          if f.isInterface then
            (encStructOfEnum all).map (fun b => uleb i ++ b)
          else
            p.map (fun b => uleb i ++ b)

/-- Model of `Encoder.encodeEnum` over a field list: ULEB of the first set field's
declaration index, then that field's payload (pointer kind) or the struct
encoding of the whole enum value (interface kind); `no field is set in the
enum` otherwise. -/
def encodeEnum (fields : List EnumField) : Except Err (List Nat) :=
  encodeEnumFrom 0 fields fields

/-- Model of `Encoder.encodeSlice` payload part: concatenated element encodings,
propagating the first element error. -/
def encListPayloads {α : Type} (f : α → Except Err (List Nat)) :
    List α → Except Err (List Nat)
  | [] => .ok []
  | x :: rest =>
      match f x with
      | .error e => .error e
      | .ok b =>
          match encListPayloads f rest with
          | .error e => .error e
          | .ok r => .ok (b ++ r)

/-- Model of `Encoder.encodeSlice`: ULEB length prefix, then each element. -/
def encSeq {α : Type} (f : α → Except Err (List Nat)) (l : List α) :
    Except Err (List Nat) :=
  (encListPayloads f l).map (fun bs => uleb l.length ++ bs)

/-- Booleans: one byte, 0 or 1 (`binary.Write`). -/
def encBool (b : Bool) : List Nat := [if b then 1 else 0]

/-- Model of `Encoder.encodeByteSlice` (also strings): ULEB length then raw bytes. -/
def encBytes (bs : List Nat) : List Nat := uleb bs.length ++ bs

/-- A slice of `model.MgoAddressBytes`: ULEB count, then each address as 32
raw bytes (the `MgoAddressBytes` carrier is exempted from the byte-slice
length prefix by `isCustomMgoAddressBytes`). -/
def encAddrSeq (l : List (List Nat)) : List Nat := uleb l.length ++ l.flatten

/-- Model of `transaction.MgoObjectRef` struct encoding: 32 raw id bytes, u64
little-endian version, then the digest as a length-prefixed byte slice
(`model.ObjectDigestBytes` is a plain `[]byte`). -/
def encObjectRef (r : MgoObjectRef) : List Nat :=
  r.objectId ++ u64le r.version ++ encBytes r.digest

/-- Model of `transaction.SharedObjectRef` struct encoding. -/
def encSharedObjectRef (s : SharedObjectRef) : List Nat :=
  s.objectId ++ u64le s.initialSharedVersion ++ encBool s.mutable

/-- Model of `transaction.ObjectArg` enum encoding. -/
def encObjectArg (oa : ObjectArg) : Except Err (List Nat) :=
  encodeEnum
    [ptrField (oa.immOrOwnedObject.map (fun r => .ok (encObjectRef r))),
     ptrField (oa.sharedObject.map (fun s => .ok (encSharedObjectRef s))),
     ptrField (oa.receiving.map (fun r => .ok (encObjectRef r)))]

/-- Model of `transaction.CallArg` enum encoding.  An UnresolvedPure input carries a
JSON map the reflective encoder rejects with `unsupported kind`. -/
def encCallArg (c : CallArg) : Except Err (List Nat) :=
  encodeEnum
    [ptrField (c.pureBytes.map (fun bs => .ok (encBytes bs))),
     ptrField (c.object.map (fun oa => encObjectArg oa)),
     ptrField (c.unresolvedPure.map (fun _ => .error .unsupportedKind)),
     ptrField (c.unresolvedObject.map (fun a => .ok a))]

/-- Model of `transaction.Argument` enum encoding.  The GasCoin variant is an `any`
slot whose active value is the empty struct, whose own reflective encoding is
empty — but because it is an interface field, `encodeEnum`'s active branch
re-encodes the whole `Argument` value, so the bytes of any later set
pointer variant follow the ULEB tag 0. -/
def encArgument (a : Argument) : Except Err (List Nat) :=
  encodeEnum
    [ifaceField (a.gasCoin.map (fun _ => .ok [])),
     ptrField (a.input.map (fun i => .ok (u16le i))),
     ptrField (a.result.map (fun i => .ok (u16le i))),
     ptrField (a.nestedResult.map
       (fun n => .ok (u16le n.index ++ u16le n.resultIndex)))]

/-- A nil `*Argument` struct field PANICS the reflective encoder: the typed nil
pointer still satisfies the pointer-receiver `Enum` assertion in
`Encoder.encode`, so `encodeEnum` is entered on the invalid indirection and
`v.Type()` panics on the zero `reflect.Value`.  A set field encodes as the
enum. -/
def encOptArgument : Option Argument → Except Err (List Nat)
  | none => .error .nilDereferencePanic
  | some a => encArgument a

/-- A `*bool` struct field: nothing when nil, the boolean byte when set. -/
def optBoolBytes : Option Bool → List Nat
  | none => []
  | some b => encBool b

mutual

/-- Model of `transaction.TypeTag` enum encoding (reached through a non-nil
`*TypeTag`, whose pointer receiver satisfies the `Enum` assertion):
first-set-wins over the Go field declaration order Bool, U8, U128, U256,
Address, Signer, Vector, Struct, U16, U32, U64.  The primitive variants are
non-nil `*bool` pointers whose pointed-to boolean is encoded as the
one-byte payload.  The Vector payload is `e.encode(reflect.Indirect(field))`
— the inner tag as a VALUE, which fails the pointer-receiver `Enum`
assertion and is therefore struct-encoded without its own ULEB
discriminant. -/
def encTypeTag : TypeTag → Except Err (List Nat)
  | .mk (some b) _ _ _ _ _ _ _ _ _ _ => .ok (uleb 0 ++ encBool b)
  | .mk none (some b) _ _ _ _ _ _ _ _ _ => .ok (uleb 1 ++ encBool b)
  | .mk none none (some b) _ _ _ _ _ _ _ _ => .ok (uleb 2 ++ encBool b)
  | .mk none none none (some b) _ _ _ _ _ _ _ => .ok (uleb 3 ++ encBool b)
  | .mk none none none none (some b) _ _ _ _ _ _ => .ok (uleb 4 ++ encBool b)
  | .mk none none none none none (some b) _ _ _ _ _ => .ok (uleb 5 ++ encBool b)
  | .mk none none none none none none (some t) _ _ _ _ =>
      (structEncTypeTag t).map (fun bs => uleb 6 ++ bs)
  | .mk none none none none none none none (some st) _ _ _ =>
      (encStructTag st).map (fun bs => uleb 7 ++ bs)
  | .mk none none none none none none none none (some b) _ _ =>
      .ok (uleb 8 ++ encBool b)
  | .mk none none none none none none none none none (some b) _ =>
      .ok (uleb 9 ++ encBool b)
  | .mk none none none none none none none none none none (some b) =>
      .ok (uleb 10 ++ encBool b)
  | .mk none none none none none none none none none none none =>
      .error .noEnumFieldSet

/-- Model of `Encoder.encodeStruct` on a `transaction.TypeTag` VALUE (the inner tag
of a Vector variant): every set `*bool` field contributes its boolean byte
in declaration order; the `Vector` field is of the enum-implementing
pointer type `*TypeTag`, so when it is nil the typed nil still passes the
`Enum` assertion and `encodeEnum` PANICS on the invalid indirection — and
when it is set the inner pointer is enum-encoded in full; a nil `Struct`
pointer (not an enum type) is silently skipped, a set one struct-encoded. -/
def structEncTypeTag : TypeTag → Except Err (List Nat)
  | .mk b u8 u128 u256 addr sg vec st u16t u32t u64t =>
      match vec with
      | none => .error .nilDereferencePanic
      | some inner =>
          match encTypeTag inner with
          | .error e => .error e
          | .ok vb =>
              match (match st with
                     | none => .ok []
                     | some s => encStructTag s : Except Err (List Nat)) with
              | .error e => .error e
              | .ok sb =>
                  .ok (optBoolBytes b ++ optBoolBytes u8 ++
                    optBoolBytes u128 ++ optBoolBytes u256 ++
                    optBoolBytes addr ++ optBoolBytes sg ++ vb ++ sb ++
                    optBoolBytes u16t ++ optBoolBytes u32t ++
                    optBoolBytes u64t)

/-- Model of `transaction.StructTag` struct encoding: 32 raw address bytes, module
and name strings, then the type-parameter slice. -/
def encStructTag : StructTag → Except Err (List Nat)
  | st =>
      match encTypeTagPayloads st.typeParams with
      | .error e => .error e
      | .ok bs =>
          .ok (st.address ++ encBytes st.module ++ encBytes st.name ++
            uleb st.typeParams.length ++ bs)

/-- Concatenated encodings of a type-tag list (slice payload). -/
def encTypeTagPayloads : List TypeTag → Except Err (List Nat)
  | [] => .ok []
  | t :: rest =>
      match encTypeTag t with
      | .error e => .error e
      | .ok b =>
          match encTypeTagPayloads rest with
          | .error e => .error e
          | .ok r => .ok (b ++ r)

end

/-- Model of `transaction.ProgrammableMoveCall` struct encoding. -/
def encMoveCall (mc : ProgrammableMoveCall) : Except Err (List Nat) :=
  match encSeq encTypeTag mc.typeArguments with
  | .error e => .error e
  | .ok tas =>
      match encSeq encOptArgument mc.arguments with
      | .error e => .error e
      | .ok args =>
          .ok (mc.package ++ encBytes mc.module ++ encBytes mc.function ++
            tas ++ args)

/-- Model of `transaction.TransferObjects` struct encoding. -/
def encTransferObjects (t : TransferObjects) : Except Err (List Nat) :=
  match encSeq encOptArgument t.objects with
  | .error e => .error e
  | .ok objs =>
      match encOptArgument t.address with
      | .error e => .error e
      | .ok addr => .ok (objs ++ addr)

/-- Model of `transaction.SplitCoins` struct encoding. -/
def encSplitCoins (s : SplitCoins) : Except Err (List Nat) :=
  match encOptArgument s.coin with
  | .error e => .error e
  | .ok coin =>
      match encSeq encOptArgument s.amount with
      | .error e => .error e
      | .ok amounts => .ok (coin ++ amounts)

/-- Model of `transaction.MergeCoins` struct encoding. -/
def encMergeCoins (m : MergeCoins) : Except Err (List Nat) :=
  match encOptArgument m.destination with
  | .error e => .error e
  | .ok dst =>
      match encSeq encOptArgument m.sources with
      | .error e => .error e
      | .ok srcs => .ok (dst ++ srcs)

/-- Model of `transaction.Publish` struct encoding. -/
def encPublish (p : Publish) : Except Err (List Nat) :=
  .ok (encAddrSeq p.modules ++ encAddrSeq p.dependencies)

/-- Model of `transaction.MakeMoveVec` struct encoding: the nil `*string` type field
carries no `optional` tag, so it contributes nothing when nil. -/
def encMakeMoveVec (m : MakeMoveVec) : Except Err (List Nat) :=
  match encSeq encOptArgument m.elements with
  | .error e => .error e
  | .ok elems =>
      .ok ((match m.typeValue with
            | none => []
            | some s => encBytes s) ++ elems)

/-- Model of `transaction.Upgrade` struct encoding. -/
def encUpgrade (u : Upgrade) : Except Err (List Nat) :=
  match encOptArgument u.ticket with
  | .error e => .error e
  | .ok ticket =>
      .ok (encAddrSeq u.modules ++ encAddrSeq u.dependencies ++ u.package ++
        ticket)

/-- Model of `transaction.Command` enum encoding. -/
def encCommand (c : Command) : Except Err (List Nat) :=
  encodeEnum
    [ptrField (c.moveCall.map (fun mc => encMoveCall mc)),
     ptrField (c.transferObjects.map (fun t => encTransferObjects t)),
     ptrField (c.splitCoins.map (fun s => encSplitCoins s)),
     ptrField (c.mergeCoins.map (fun m => encMergeCoins m)),
     ptrField (c.publish.map (fun p => encPublish p)),
     ptrField (c.makeMoveVec.map (fun m => encMakeMoveVec m)),
     ptrField (c.upgrade.map (fun u => encUpgrade u))]

/-- Model of `transaction.ProgrammableTransaction` struct encoding. -/
def encProgrammableTransaction (pt : ProgrammableTransaction) :
    Except Err (List Nat) :=
  match encSeq encCallArg pt.inputs with
  | .error e => .error e
  | .ok ins =>
      match encSeq encCommand pt.commands with
      | .error e => .error e
      | .ok cmds => .ok (ins ++ cmds)

/-- Model of `transaction.TransactionKind` enum encoding (`TransactionKind.Marshal`):
ProgrammableTransaction at index 0; the three remaining `any` fields are
never populated by the SDK, so they are permanently nil. -/
def encTransactionKind (k : TransactionKind) : Except Err (List Nat) :=
  encodeEnum
    [ptrField (k.programmableTransaction.map
       (fun pt => encProgrammableTransaction pt)),
     ifaceField none, ifaceField none, ifaceField none]

/-- Model of the encoding of a present `transaction.TransactionExpiration`.  The
`bcs:"optional"` branch of `Encoder.encodeStruct` reaches it through
`field.Elem()`, so it arrives as a VALUE, fails the pointer-receiver
`Enum` assertion, and is struct-encoded — with NO ULEB variant index.  The
`None` interface slot contributes nothing whether nil or holding the empty
struct; a set `Epoch` contributes its eight little-endian bytes. -/
def encExpiration (e : TransactionExpiration) : List Nat :=
  match e.epoch with
  | none => []
  | some v => u64le v

/-- Model of `transaction.GasData` struct encoding: each nil pointer field is
silently skipped by the reflective encoder (no flag byte, no error). -/
def encGasData (gd : GasData) : List Nat :=
  (match gd.payment with
   | none => []
   | some l => uleb l.length ++ (l.map encObjectRef).flatten) ++
  (match gd.owner with
   | none => []
   | some a => a) ++
  (match gd.price with
   | none => []
   | some p => u64le p) ++
  (match gd.budget with
   | none => []
   | some b => u64le b)

/-- Model of `transaction.TransactionDataV1` struct encoding: kind, sender (nil
pointer skipped), gas data, then the `bcs:"optional"`-tagged expiration —
a presence flag byte followed, when present, by the tag-less value
encoding of the expiration struct. -/
def encTransactionDataV1 (v1 : TransactionDataV1) : Except Err (List Nat) :=
  match encTransactionKind v1.kind with
  | .error e => .error e
  | .ok kb =>
      .ok (kb ++
        (match v1.sender with
         | none => []
         | some a => a) ++
        encGasData v1.gasData ++
        (match v1.expiration with
         | none => [0]
         | some e => 1 :: encExpiration e))

/-- Model of `transaction.TransactionData` enum encoding (`TransactionData.Marshal`):
the canonical V1-only declaration puts V1 at declaration index 0. -/
def encTransactionData (td : TransactionData) : Except Err (List Nat) :=
  encodeEnum [ptrField (td.v1.map (fun v1 => encTransactionDataV1 v1))]

/-! ## Base64 (encoding/base64 StdEncoding, wrapped by `bcs.ToBase64` /
`bcs.FromBase64`) -/

/-- Standard base64 alphabet byte at index `n < 64`. -/
def b64Char (n : Nat) : Nat :=
  if n < 26 then 65 + n
  else if n < 52 then 97 + (n - 26)
  else if n < 62 then 48 + (n - 52)
  else if n = 62 then 43
  else 47

/-- Modelled from the spec: `bcs.ToBase64` (its one-line wrapper around
`base64.StdEncoding.EncodeToString` is not among the provided sources).
Standard base64 with `'='` padding over the byte list. -/
def base64Encode : List Nat → List Nat
  | [] => []
  | [a] => [b64Char (a / 4), b64Char (a % 4 * 16), 61, 61]
  | [a, b] => [b64Char (a / 4), b64Char (a % 4 * 16 + b / 16),
               b64Char (b % 16 * 4), 61]
  | a :: b :: c :: rest =>
      [b64Char (a / 4), b64Char (a % 4 * 16 + b / 16),
       b64Char (b % 16 * 4 + c / 64), b64Char (c % 64)] ++ base64Encode rest

/-- Value of one base64 alphabet byte. -/
def b64Val (c : Nat) : Option Nat :=
  if 65 ≤ c ∧ c ≤ 90 then some (c - 65)
  else if 97 ≤ c ∧ c ≤ 122 then some (c - 71)
  else if 48 ≤ c ∧ c ≤ 57 then some (c + 4)
  else if c = 43 then some 62
  else if c = 47 then some 63
  else none

/-- Modelled from the spec: `bcs.FromBase64` /
`base64.StdEncoding.DecodeString` (not among the provided sources):
standard padded base64 decoding; `none` on malformed input. -/
def base64Decode : List Nat → Option (List Nat)
  | [] => some []
  | [a, b, 61, 61] => do
      let x ← b64Val a
      let y ← b64Val b
      pure [x * 4 + y / 16]
  | [a, b, c, 61] => do
      let x ← b64Val a
      let y ← b64Val b
      let z ← b64Val c
      pure [x * 4 + y / 16, y % 16 * 16 + z / 4]
  | a :: b :: c :: d :: rest => do
      let x ← b64Val a
      let y ← b64Val b
      let z ← b64Val c
      let w ← b64Val d
      let r ← base64Decode rest
      pure ([x * 4 + y / 16, y % 16 * 16 + z / 4, z % 4 * 64 + w] ++ r)
  | _ => none

/-! ## Signing subsystem (account/keypair, account/signer) -/

/-- Model of `keypair.Keypair`: the scheme flag byte, the signer's public key bytes,
and the scheme-specific raw signing primitive (Ed25519 via crypto/ed25519 or
secp256k1 via dcrec — external collaborators, carried as the keypair's
signing behaviour). -/
structure Keypair where
  scheme : Nat
  publicKey : List Nat
  sign : List Nat → List Nat

/-- Model of `keypair.dataWithIntent`: three-byte header (intent, 0, 0), then the
payload.  Intent 0 = transaction data, 3 = personal message
(config/constant.go). -/
def dataWithIntent (data : List Nat) (intent : Nat) : List Nat :=
  intent :: 0 :: 0 :: data

/-- Model of `Keypair.MgoAddress`: `"0x"` + first 64 hex chars of the Keccak-256 of
(scheme flag byte || public key).  `keccak` is the `utils.Keccak256`
collaborator (x/crypto), passed as a parameter. -/
def keypairMgoAddress (keccak : List Nat → List Nat) (k : Keypair) :
    List Nat :=
  zeroXBytes ++ (hexEncode (keccak (k.scheme :: k.publicKey))).take 64

/-- Model of `Keypair.toSerializedSignature`: base64 of
scheme flag byte || raw signature || public key. -/
def toSerializedSignature (k : Keypair) (signature : List Nat) : List Nat :=
  base64Encode (k.scheme :: (signature ++ k.publicKey))

/-- Model of `Keypair.SignTransactionBlock`: decode the base64 transaction bytes
(the Go code discards the decode error), frame with intent 0, Keccak-256,
sign, and serialize with the keypair's own scheme flag. -/
def signTransactionBlock (keccak : List Nat → List Nat) (k : Keypair)
    (txB64 : List Nat) : List Nat :=
  let txBytes := (base64Decode txB64).getD []
  let digest := keccak (dataWithIntent txBytes 0)
  toSerializedSignature k (k.sign digest)

/-- Model of `Keypair.SignPersonalMessage`: ULEB length prefix, intent-3 framing,
Keccak-256, sign — then the envelope is assembled as
`byte(config.Ed25519Flag)` (the literal constant 0, NOT the keypair's own
scheme flag) || raw signature || public key. -/
def signPersonalMessage (keccak : List Nat → List Nat) (k : Keypair)
    (message : List Nat) : List Nat :=
  let message' := uleb message.length ++ message
  let digest := keccak (dataWithIntent message' 3)
  let signData := k.sign digest ++ k.publicKey
  0 :: signData

/-- Model of `secp256k1.parseDERSignature` (secp256k1 signer): read the DER r and s
integers at their recorded lengths, strip every leading zero byte from
each, and concatenate the stripped forms.  No re-padding to 32 bytes takes
place.  Out-of-range reads (malformed DER) are modelled by the truncating
`drop`/`take`/`getD`; the Go code would panic there. -/
def stripLeadingZeros : List Nat → List Nat
  | 0 :: rest => stripLeadingZeros rest
  | l => l

def parseDERSignature (sig : List Nat) : List Nat :=
  let rLen := sig.getD 3 0
  let rBytes := (sig.drop 4).take rLen
  let sLen := sig.getD (4 + rLen + 1) 0
  let sBytes := (sig.drop (4 + rLen + 2)).take sLen
  stripLeadingZeros rBytes ++ stripLeadingZeros sBytes

/-! ## The builder's Transaction and its build pipeline (Transaction
struct, `Build`, `BuildTransaction`,
`ToMgoExecuteTransactionBlockRequest`) -/

/-- The RPC collaborator, reduced to the one call the pipeline makes:
`MgoXGetReferenceGasPrice`. -/
structure Client where
  referenceGasPrice : Except Err Nat

/-- Model of `transaction.Transaction`. -/
structure Transaction where
  data : TransactionData
  signer : Option Keypair
  sponsoredSigner : Option Keypair
  mgoClient : Option Client

/-- Model of `GasData.IsAllSet`. -/
def gasDataIsAllSet (gd : GasData) : Bool :=
  gd.payment.isSome && gd.owner.isSome && gd.price.isSome && gd.budget.isSome

/-- The shared tail of `Transaction.Build(false)`: the `IsAllSet` check
followed by `TransactionData.Marshal` and base64; the state is whatever the
owner-defaulting step left behind. -/
def buildTail (tx : Transaction) (v1 : TransactionDataV1) :
    Except Err (List Nat) × Transaction :=
  if gasDataIsAllSet v1.gasData then
    match encTransactionData { v1 := some v1 } with
    | .error e => (.error e, tx)
    | .ok bs => (.ok (base64Encode bs), tx)
  else
    (.error .gasDataNotAllSet, tx)

/-- Model of `Transaction.Build`: with only-kind, marshal just the kind union; else
require a sender, default an unset gas owner from the signer's address
(a nil signer is a nil-pointer dereference; a conversion failure is the
`SetGasOwner` panic), require all-set gas data, marshal the envelope,
base64.  Returns the result together with the (possibly mutated)
transaction. -/
def transactionBuild (keccak : List Nat → List Nat) (tx : Transaction)
    (onlyTransactionKind : Bool) : Except Err (List Nat) × Transaction :=
  match tx.data.v1 with
  | none => (.error .nilDereferencePanic, tx)
  | some v1 =>
      if onlyTransactionKind then
        match encTransactionKind v1.kind with
        | .error e => (.error e, tx)
        | .ok bs => (.ok (base64Encode bs), tx)
      else
        if v1.sender.isNone then (.error .senderNotSet, tx)
        else
          match v1.gasData.owner with
          | some _ => buildTail tx v1
          | none =>
              match tx.signer with
              | none => (.error .nilDereferencePanic, tx)
              | some k =>
                  match convertMgoAddressStringToBytes
                      (keypairMgoAddress keccak k) with
                  | none => (.error .invalidMgoAddress, tx)
                  | some ow =>
                      let gd' : GasData := { v1.gasData with owner := some ow }
                      let v1' : TransactionDataV1 := { v1 with gasData := gd' }
                      buildTail { tx with data := { v1 := some v1' } } v1'

/-- Modelled from the spec: `defaultGasBudget` (referenced by
`BuildTransaction`; its declaration is not among the provided sources — the
spec only says `set-gas-budget-if-not-set` provides a default).  The
concrete value is irrelevant to every claim. -/
def defaultGasBudget : Nat := 50000000

/-- Model of `Transaction.SetSender`'s normalization and conversion, panicking on a
conversion failure. -/
def setSenderBytes (s : List Nat) : Except Err (List Nat) :=
  match normalizeMgoAddress s with
  | none => .error .negativeRepeatPanic
  | some ns =>
      match convertMgoAddressStringToBytes ns with
      | none => .error .invalidMgoAddress
      | some ab => .ok ab

/-- Model of `Transaction.BuildTransaction`: require a signer; fetch the reference
gas price from the client when the price is unset and a client is present;
default the budget; default the sender from the signer's address; then
`Build(false)`. -/
def buildTransaction (keccak : List Nat → List Nat) (tx : Transaction) :
    Except Err (List Nat) × Transaction :=
  match tx.signer with
  | none => (.error .signerNotSet, tx)
  | some k =>
      match tx.data.v1 with
      | none => (.error .nilDereferencePanic, tx)
      | some v1 =>
          match (if v1.gasData.price.isNone then
                   match tx.mgoClient with
                   | some cl => cl.referenceGasPrice.map (fun p => some p)
                   | none => .ok v1.gasData.price
                 else .ok v1.gasData.price : Except Err (Option Nat)) with
          | .error e => (.error e, tx)
          | .ok price' =>
              let budget' := match v1.gasData.budget with
                | none => some defaultGasBudget
                | some b => some b
              match (match v1.sender with
                     | some s => .ok (some s)
                     | none =>
                         (setSenderBytes (keypairMgoAddress keccak k)).map
                           (fun ab => some ab) : Except Err (Option (List Nat))) with
              | .error e => (.error e, tx)
              | .ok sender' =>
                  let gd' : GasData :=
                    { v1.gasData with price := price', budget := budget' }
                  let v1' : TransactionDataV1 :=
                    { v1 with sender := sender', gasData := gd' }
                  transactionBuild keccak { tx with data := { v1 := some v1' } }
                    false

/-- Modelled from the spec: `request.MgoTransactionBlockOptions` (model
package, not among the provided sources): six show-booleans. -/
structure MgoTransactionBlockOptions where
  showInput : Bool
  showRawInput : Bool
  showEffects : Bool
  showEvents : Bool
  showObjectChanges : Bool
  showBalanceChanges : Bool

/-- Modelled from the spec: `request.MgoExecuteTransactionBlockRequest`
(model package, not among the provided sources): base64 transaction bytes,
serialized signatures, options, request type. -/
structure MgoExecuteTransactionBlockRequest where
  txBytes : List Nat
  signature : List (List Nat)
  options : MgoTransactionBlockOptions
  requestType : List Nat

/-- Model of `Transaction.ToMgoExecuteTransactionBlockRequest`: requires a signer,
builds, then collects the sponsor's signature (when a sponsor signer is
set) FIRST and the main signer's signature second. -/
def toMgoExecuteTransactionBlockRequest (keccak : List Nat → List Nat)
    (tx : Transaction) (options : MgoTransactionBlockOptions)
    (requestType : List Nat) :
    Except Err MgoExecuteTransactionBlockRequest :=
  match tx.signer with
  | none => .error .signerNotSet
  | some k =>
      match (buildTransaction keccak tx).1 with
      | .error e => .error e
      | .ok b64 =>
          .ok { txBytes := b64,
                signature :=
                  (match tx.sponsoredSigner with
                   | some sp => [signTransactionBlock keccak sp b64]
                   | none => []) ++ [signTransactionBlock keccak k b64],
                options := options,
                requestType := requestType }

/-! ## Concrete fixtures and remaining helper definitions -/

/-- Model of `Except.isOk` as a plain definition. -/
def exceptIsOk {ε α : Type} : Except ε α → Bool
  | .ok _ => true
  | .error _ => false

/-- A stand-in for the Keccak-256 collaborator in closed witnesses: any
function of the right type exercises the pipeline. -/
def keccakZero : List Nat → List Nat := fun _ => List.replicate 32 0

/-- A concrete Ed25519-scheme keypair model (flag 0, 32-byte public key). -/
def kpA : Keypair :=
  { scheme := 0, publicKey := List.replicate 32 2,
    sign := fun _ => List.replicate 64 9 }

/-- A concrete secp256k1-scheme keypair model (flag 1, 33-byte compressed
public key). -/
def kpB : Keypair :=
  { scheme := 1, publicKey := List.replicate 33 3,
    sign := fun _ => List.replicate 64 8 }

/-- Gas data with payment, price and budget set but no owner. -/
def gasNoOwner : GasData :=
  { payment := some [], owner := none, price := some 1, budget := some 1 }

/-- A V1 value with a sender, an empty programmable transaction and gas
data lacking only the owner. -/
def v1OwnerUnset : TransactionDataV1 :=
  { kind := { programmableTransaction := some { inputs := [], commands := [] } },
    sender := some (List.replicate 32 1),
    gasData := gasNoOwner,
    expiration := none }

/-- A transaction whose gas owner is unset but whose signer is set. -/
def txOwnerUnset : Transaction :=
  { data := { v1 := some v1OwnerUnset },
    signer := some kpA, sponsoredSigner := none, mgoClient := none }

/-- Fully-set gas data. -/
def gasFull : GasData :=
  { payment := some [], owner := some (List.replicate 32 1),
    price := some 1, budget := some 1 }

/-- A fully-set V1 value with an empty programmable transaction. -/
def v1Full : TransactionDataV1 :=
  { kind := { programmableTransaction := some { inputs := [], commands := [] } },
    sender := some (List.replicate 32 1),
    gasData := gasFull,
    expiration := none }

/-- A buildable transaction with both a main and a sponsor signer. -/
def txSponsored : Transaction :=
  { data := { v1 := some v1Full },
    signer := some kpA, sponsoredSigner := some kpB, mgoClient := none }

/-- A buildable transaction with only the main signer. -/
def txUnsponsored : Transaction :=
  { data := { v1 := some v1Full },
    signer := some kpA, sponsoredSigner := none, mgoClient := none }

/-- Concrete submit options. -/
def optsW : MgoTransactionBlockOptions :=
  { showInput := true, showRawInput := false, showEffects := true,
    showEvents := false, showObjectChanges := false,
    showBalanceChanges := false }

/-- The state update `Build(false)` performs when it defaults the gas
owner: the owner becomes `some ow`; every other field of the transaction
data is untouched. -/
def withGasOwner (tx : Transaction) (v1 : TransactionDataV1) (ow : List Nat) :
    Transaction :=
  let gd' : GasData := { v1.gasData with owner := some ow }
  { tx with data := { v1 := some { v1 with gasData := gd' } } }

/-- The envelope value of the fresh builder (`NewTransaction`). -/
def tdNew : TransactionData := { v1 := some newTransactionDataV1 }

/-- A minimal-DER signature whose `r` integer needs only 31 bytes:
`0x30 len 0x02 31 r[31] 0x02 32 s[32]`. -/
def derShortR : List Nat :=
  [48, 67, 2, 31] ++ (127 :: List.replicate 30 1) ++
    [2, 32] ++ (16 :: List.replicate 31 2)

/-! ## Theorems for the build dispatch (C4, C10), envelope tag (C6),
signing flag (C7), DER post-processing (C8) and enum refusal (C9) -/

/-! ## JSON projection (TransactionData.SerializeV1 / DeserializeFromJSON)

The Go code serializes the typed tree into the `Serialized*` structs and
runs them through `encoding/json`; `DeserializeFromJSON` unmarshals the
text back into the same structs and rebuilds the tree.  The JSON text layer
(`json.Marshal`/`json.Unmarshal` on those structs) is the identity on the
struct contents and is not modelled; the `Serialized*` structs themselves
and both direction's conversion logic are embedded below. -/

/-- Bytes of one base58 alphabet character (`mr-tron/base58` Bitcoin
alphabet) for a digit `< 58`. -/
def base58Char (d : Nat) : Nat :=
  [49, 50, 51, 52, 53, 54, 55, 56, 57,
   65, 66, 67, 68, 69, 70, 71, 72, 74, 75, 76, 77, 78, 80, 81, 82, 83, 84,
   85, 86, 87, 88, 89, 90,
   97, 98, 99, 100, 101, 102, 103, 104, 105, 106, 107, 109, 110, 111, 112,
   113, 114, 115, 116, 117, 118, 119, 120, 121, 122].getD d 49

/-- Big-endian byte list to number. -/
def bytesToNat (bs : List Nat) : Nat :=
  bs.foldl (fun acc b => acc * 256 + b) 0

/-- Base-58 digits of `n`, least significant first, with enough fuel for a
32-byte value. -/
def natToBase58Digits : Nat → Nat → List Nat
  | 0, _ => []
  | _ + 1, 0 => []
  | fuel + 1, n => n % 58 :: natToBase58Digits fuel (n / 58)

/-- Model of `ConvertObjectDigestBytesToString` / `base58.Encode`: leading zero
bytes become `'1'` characters; the rest is the big-endian base-58
rendering. -/
def base58Encode (bs : List Nat) : List Nat :=
  List.replicate (bs.takeWhile (· == 0)).length 49 ++
    ((natToBase58Digits 64 (bytesToNat bs)).reverse.map base58Char)

/-- Decimal digits of `n`, least significant first. -/
def natToDecimalDigits : Nat → Nat → List Nat
  | 0, _ => []
  | _ + 1, 0 => []
  | fuel + 1, n => (48 + n % 10) :: natToDecimalDigits fuel (n / 10)

/-- Model of `fmt.Sprintf("%d", n)` for unsigned values. -/
def natToDecimal (n : Nat) : List Nat :=
  if n = 0 then [48] else (natToDecimalDigits 30 n).reverse

/-- Digit-folding core of `strconv.ParseUint(…, 10, 64)`. -/
def parseDecimalAux : List Nat → Nat → Option Nat
  | [], acc => some acc
  | c :: rest, acc =>
      if 48 ≤ c ∧ c ≤ 57 then parseDecimalAux rest (acc * 10 + (c - 48))
      else none

/-- Model of `strconv.ParseUint(s, 10, 64)`: non-empty, decimal digits only, value
below `2^64`. -/
def parseDecimal (s : List Nat) : Option Nat :=
  if s = [] then none
  else
    match parseDecimalAux s 0 with
    | none => none
    | some n => if n < 2 ^ 64 then some n else none

/-- The projected value of one input (`SerializedInput.Value` together with
its `Type` discriminant): object ids and digests are carried as strings,
versions as JSON numbers. -/
inductive SInputValue where
  | immOrOwned (objectId : List Nat) (version : Nat) (digest : List Nat)
  | receiving (objectId : List Nat) (version : Nat) (digest : List Nat)
  | sharedObj (objectId : List Nat) (initialSharedVersion : Nat)
      (mutable : Bool)
  | unresolvedObj (objectId : List Nat)
  | pureB64 (b64 : List Nat)
  | pureArr (bytes : List Nat)
  | pureOther
  | objectEmptyVal
  | emptyVal
deriving DecidableEq, Repr

/-- Model of `transaction.SerializedInput` (the `kind` field is the constant string
`"Input"`). -/
structure SInput where
  index : Nat
  value : SInputValue
deriving DecidableEq, Repr

/-- The projected form of one argument
(`convertArgumentToSerializedFormat`'s result map). -/
inductive SArg where
  | input (index : Nat)
  | result (index : Nat)
  | nestedResult (index : Nat) (resultIndex : Nat)
  | gasCoin
deriving DecidableEq, Repr

/-- The `kind` discriminant of `transaction.SerializedTransaction`. -/
inductive SCmdKind where
  | moveCall
  | transferObjects
  | splitCoins
  | mergeCoins
  | publish
  | makeMoveVec
  | upgrade
deriving DecidableEq, Repr

/-- Model of `transaction.SerializedTransaction`: one flat struct whose irrelevant
fields stay empty, exactly like the Go struct with its `omitempty` tags.
`typeValue` models the MakeMoveVec `Type` field: `some s` is the
`{"Some": s}` map, `none` covers both the `{"None": true}` map and an
absent field (the deserializer treats them identically). -/
structure STransaction where
  kind : SCmdKind
  target : List Nat
  typeArguments : List (List Nat)
  arguments : List (Option SArg)
  objects : List (Option SArg)
  address : Option SArg
  destination : Option SArg
  sources : List (Option SArg)
  coin : Option SArg
  amounts : List (Option SArg)
  modules : List (List Nat)
  dependencies : List (List Nat)
  packageId : List Nat
  ticket : Option SArg
  typeValue : Option (List Nat)
deriving DecidableEq, Repr

/-- An `STransaction` with every field empty, to be filled per command
kind. -/
def emptySTransaction (k : SCmdKind) : STransaction :=
  { kind := k, target := [], typeArguments := [], arguments := [],
    objects := [], address := none, destination := none, sources := [],
    coin := none, amounts := [], modules := [], dependencies := [],
    packageId := [], ticket := none, typeValue := none }

/-- Model of `transaction.SerializedTransactionDataV1`.  `sender`, `gasOwner`,
`gasBudget` and `gasPrice` use the empty string for an absent value
(`omitempty`); `expiration` is `some (some e)` for `{"Epoch": e}`,
`some none` for `{"None": true}` and `none` when absent; `gasPayment` is
the list of payment object-id strings (a nil and an empty slice behave
identically on both sides). -/
structure STxDataV1 where
  version : Nat
  sender : List Nat
  expiration : Option (Option Nat)
  gasOwner : List Nat
  gasBudget : List Nat
  gasPrice : List Nat
  gasPayment : List (List Nat)
  inputs : List SInput
  transactions : List STransaction
deriving DecidableEq, Repr

/-- Model of `convertArgumentToSerializedFormat` on a non-nil argument: first-match
over Input, Result, NestedResult; anything else (including the GasCoin
variant and a value with no variant set) projects as GasCoin. -/
def serializeArgument (a : Argument) : SArg :=
  match a.input with
  | some i => .input i
  | none =>
      match a.result with
      | some i => .result i
      | none =>
          match a.nestedResult with
          | some n => .nestedResult n.index n.resultIndex
          | none => .gasCoin

/-- Model of `convertArgumentToSerializedFormat` including the nil-pointer case
(JSON null). -/
def serializeOptArgument : Option Argument → Option SArg
  | none => none
  | some a => some (serializeArgument a)

/-- Model of `deserializeArgument`: null stays nil; the `index` JSON numbers pass
through Go's `uint16(float64)` narrowing. -/
def deserializeArgument : Option SArg → Option Argument
  | none => none
  | some (.input i) =>
      some { gasCoin := none, input := some (i % 65536), result := none,
             nestedResult := none }
  | some (.result i) =>
      some { gasCoin := none, input := none, result := some (i % 65536),
             nestedResult := none }
  | some (.nestedResult i r) =>
      some { gasCoin := none, input := none, result := none,
             nestedResult := some { index := i % 65536,
                                    resultIndex := r % 65536 } }
  | some .gasCoin =>
      some { gasCoin := some (), input := none, result := none,
             nestedResult := none }

/-- Bytes of the string `"::"`. -/
def doubleColon : List Nat := [58, 58]

/-- Model of `strings.Join(parts, ", ")`. -/
def joinCommaSpace : List (List Nat) → List Nat
  | [] => []
  | [x] => x
  | x :: rest => x ++ [44, 32] ++ joinCommaSpace rest

mutual

/-- Model of `convertTypeTagToString`: first-match over the PRINTER's check order
Bool, U8, U16, U32, U64, U128, U256, Address, Signer, Vector, Struct
(which differs from the encoder's declaration order); an empty tag prints
as the empty string. -/
def typeTagToString : TypeTag → List Nat
  | .mk (some _) _ _ _ _ _ _ _ _ _ _ => [98, 111, 111, 108]
  | .mk none (some _) _ _ _ _ _ _ _ _ _ => [117, 56]
  | .mk none none _ _ _ _ _ _ (some _) _ _ => [117, 49, 54]
  | .mk none none _ _ _ _ _ _ none (some _) _ => [117, 51, 50]
  | .mk none none _ _ _ _ _ _ none none (some _) => [117, 54, 52]
  | .mk none none (some _) _ _ _ _ _ none none none => [117, 49, 50, 56]
  | .mk none none none (some _) _ _ _ _ none none none => [117, 50, 53, 54]
  | .mk none none none none (some _) _ _ _ none none none =>
      [97, 100, 100, 114, 101, 115, 115]
  | .mk none none none none none (some _) _ _ none none none =>
      [115, 105, 103, 110, 101, 114]
  | .mk none none none none none none (some t) _ none none none =>
      [118, 101, 99, 116, 111, 114, 60] ++ typeTagToString t ++ [62]
  | .mk none none none none none none none (some st) none none none =>
      structTagToString st
  | .mk none none none none none none none none none none none => []

/-- The struct case of `convertTypeTagToString`:
`<address>::<module>::<name>` with an optional `<…>` suffix. -/
def structTagToString : StructTag → List Nat
  | st =>
      convertMgoAddressBytesToString st.address ++ doubleColon ++
        st.module ++ doubleColon ++ st.name ++
        (if st.typeParams.isEmpty then []
         else [60] ++ joinCommaSpace (typeTagStrings st.typeParams) ++ [62])

/-- String forms of a type-parameter list. -/
def typeTagStrings : List TypeTag → List (List Nat)
  | [] => []
  | t :: rest => typeTagToString t :: typeTagStrings rest

end

/-- The `SerializeV1` projection of one input (loop body at its position
`i`), following the Go dispatch order Object (ImmOrOwned, Receiving,
Shared), Pure, UnresolvedPure, UnresolvedObject. -/
def serializeInput (i : Nat) (c : CallArg) : SInput :=
  match c.object with
  | some oa =>
      match oa.immOrOwnedObject with
      | some r =>
          ⟨i, .immOrOwned (convertMgoAddressBytesToString r.objectId)
            r.version (base58Encode r.digest)⟩
      | none =>
          match oa.receiving with
          | some r =>
              ⟨i, .receiving (convertMgoAddressBytesToString r.objectId)
                r.version (base58Encode r.digest)⟩
          | none =>
              match oa.sharedObject with
              | some s =>
                  ⟨i, .sharedObj (convertMgoAddressBytesToString s.objectId)
                    s.initialSharedVersion s.mutable⟩
              | none => ⟨i, .objectEmptyVal⟩
  | none =>
      match c.pureBytes with
      | some bs => ⟨i, .pureB64 (base64Encode bs)⟩
      | none =>
          match c.unresolvedPure with
          | some _ => ⟨i, .pureOther⟩
          | none =>
              match c.unresolvedObject with
              | some a => ⟨i, .unresolvedObj (convertMgoAddressBytesToString a)⟩
              | none => ⟨i, .emptyVal⟩

/-- The `SerializeV1` projection of one command; a command with no variant
set is skipped (`none`).  The Go dispatch order is MakeMoveVec, MergeCoins,
MoveCall, Publish, SplitCoins, TransferObjects, Upgrade. -/
def serializeCommand (c : Command) : Option STransaction :=
  match c.makeMoveVec with
  | some m =>
      some { emptySTransaction .makeMoveVec with
        typeValue := m.typeValue,
        objects := m.elements.map serializeOptArgument }
  | none =>
  match c.mergeCoins with
  | some m =>
      some { emptySTransaction .mergeCoins with
        destination := serializeOptArgument m.destination,
        sources := m.sources.map serializeOptArgument }
  | none =>
  match c.moveCall with
  | some mc =>
      some { emptySTransaction .moveCall with
        target := convertMgoAddressBytesToString mc.package ++ doubleColon ++
          mc.module ++ doubleColon ++ mc.function,
        typeArguments := typeTagStrings mc.typeArguments,
        arguments := mc.arguments.map serializeOptArgument }
  | none =>
  match c.publish with
  | some p =>
      some { emptySTransaction .publish with
        modules := p.modules,
        dependencies := p.dependencies.map convertMgoAddressBytesToString }
  | none =>
  match c.splitCoins with
  | some s =>
      some { emptySTransaction .splitCoins with
        coin := serializeOptArgument s.coin,
        amounts := s.amount.map serializeOptArgument }
  | none =>
  match c.transferObjects with
  | some t =>
      some { emptySTransaction .transferObjects with
        objects := t.objects.map serializeOptArgument,
        address := serializeOptArgument t.address }
  | none =>
  match c.upgrade with
  | some u =>
      some { emptySTransaction .upgrade with
        modules := u.modules,
        dependencies := u.dependencies.map convertMgoAddressBytesToString,
        packageId := convertMgoAddressBytesToString u.package,
        ticket := serializeOptArgument u.ticket }
  | none => none

/-- Model of `TransactionData.SerializeV1`: project the typed tree into the
serialized struct (version fixed at 1; empty strings for absent scalar
fields; decimal strings for budget and price; payment projected as
object-id strings only). -/
def serializeV1 (td : TransactionData) : Except Err STxDataV1 :=
  match td.v1 with
  | none => .error .v1IsNil
  | some v1 =>
      .ok {
        version := 1,
        sender := (match v1.sender with
          | some a => convertMgoAddressBytesToString a
          | none => []),
        expiration := (match v1.expiration with
          | none => none
          | some e =>
              match e.epoch with
              | some ep => some (some ep)
              | none => some none),
        gasOwner := (match v1.gasData.owner with
          | some a => convertMgoAddressBytesToString a
          | none => []),
        gasBudget := (match v1.gasData.budget with
          | some b => natToDecimal b
          | none => []),
        gasPrice := (match v1.gasData.price with
          | some p => natToDecimal p
          | none => []),
        gasPayment := (match v1.gasData.payment with
          | none => []
          | some l => l.map (fun r => convertMgoAddressBytesToString r.objectId)),
        inputs := (match v1.kind.programmableTransaction with
          | none => []
          | some pt => pt.inputs.enum.map (fun p => serializeInput p.1 p.2)),
        transactions := (match v1.kind.programmableTransaction with
          | none => []
          | some pt => pt.commands.filterMap serializeCommand) }

/-- ASCII whitespace test (`strings.TrimSpace` cutset, ASCII fragment). -/
def isSpaceByte (c : Nat) : Bool := c == 32 || c == 9 || c == 10 || c == 13

/-- Model of `strings.TrimSpace` (ASCII). -/
def trimSpace (s : List Nat) : List Nat :=
  ((s.dropWhile isSpaceByte).reverse.dropWhile isSpaceByte).reverse

/-- The character loop of `parseStructTypeParts`: split on top-level `"::"`
while tracking angle-bracket depth. -/
def nextIsColon (l : List Nat) : Bool := l.head? == some 58

def parseStructTypePartsGo :
    List Nat → Int → List Nat → List (List Nat) → List (List Nat)
  | [], _, current, acc => if current.isEmpty then acc else acc ++ [current]
  | c :: rest, depth, current, acc =>
      if c = 60 then parseStructTypePartsGo rest (depth + 1) (current ++ [c]) acc
      else if c = 62 then
        parseStructTypePartsGo rest (depth - 1) (current ++ [c]) acc
      else if c = 58 ∧ depth = 0 ∧ nextIsColon rest then
        parseStructTypePartsGo rest.tail depth []
          (if current.isEmpty then acc else acc ++ [current])
      else parseStructTypePartsGo rest depth (current ++ [c]) acc
termination_by s _ _ _ => s.length
decreasing_by all_goals simp [List.length_tail] <;> omega

/-- Model of `parseStructTypeParts`. -/
def parseStructTypeParts (s : List Nat) : List (List Nat) :=
  parseStructTypePartsGo s 0 [] []

/-- The character loop of `parseTypeParameters`: split on top-level commas,
tracking depth, with the Go code's lookahead-dependent space handling. -/
def nextIsNotComma (l : List Nat) : Bool :=
  match l.head? with
  | some n => n != 44
  | none => false

def parseTypeParametersGo :
    List Nat → Int → List Nat → List (List Nat) → List (List Nat)
  | [], _, current, acc =>
      if (trimSpace current).isEmpty then acc else acc ++ [trimSpace current]
  | c :: rest, depth, current, acc =>
      if c = 60 then parseTypeParametersGo rest (depth + 1) (current ++ [c]) acc
      else if c = 62 then
        parseTypeParametersGo rest (depth - 1) (current ++ [c]) acc
      else if c = 44 then
        if depth = 0 then
          parseTypeParametersGo rest depth []
            (if (trimSpace current).isEmpty then acc
             else acc ++ [trimSpace current])
        else parseTypeParametersGo rest depth (current ++ [c]) acc
      else if c = 32 then
        if ¬current.isEmpty ∧ depth > 0 then
          parseTypeParametersGo rest depth (current ++ [c]) acc
        else if ¬current.isEmpty ∧ depth = 0 then
          if nextIsNotComma rest then
            parseTypeParametersGo rest depth (current ++ [c]) acc
          else parseTypeParametersGo rest depth current acc
        else parseTypeParametersGo rest depth current acc
      else parseTypeParametersGo rest depth (current ++ [c]) acc
termination_by s _ _ _ => s.length
decreasing_by all_goals simp

/-- Model of `parseTypeParameters`. -/
def parseTypeParameters (s : List Nat) : List (List Nat) :=
  if s.isEmpty then [] else parseTypeParametersGo s 0 [] []

/-- Model of `strings.Contains`: the needle occurs as a contiguous substring. -/
def containsSub (needle : List Nat) : List Nat → Bool
  | [] => needle.isEmpty
  | c :: rest => needle.isPrefixOf (c :: rest) || containsSub needle rest

/-- Model of `tag.Bool = new(bool)` etc.: the primitive tag values `parseTypeTag`
constructs — a pointer to `false` in the matching declaration slot. -/
def tagBool : TypeTag :=
  .mk (some false) none none none none none none none none none none

def tagU8 : TypeTag :=
  .mk none (some false) none none none none none none none none none

def tagU128 : TypeTag :=
  .mk none none (some false) none none none none none none none none

def tagU256 : TypeTag :=
  .mk none none none (some false) none none none none none none none

def tagAddress : TypeTag :=
  .mk none none none none (some false) none none none none none none

def tagSigner : TypeTag :=
  .mk none none none none none (some false) none none none none none

def tagU16 : TypeTag :=
  .mk none none none none none none none none (some false) none none

def tagU32 : TypeTag :=
  .mk none none none none none none none none none (some false) none

def tagU64 : TypeTag :=
  .mk none none none none none none none none none none (some false)

/-- A vector type tag. -/
def mkVectorTag (t : TypeTag) : TypeTag :=
  .mk none none none none none none (some t) none none none none

/-- A struct type tag. -/
def mkStructTagT (st : StructTag) : TypeTag :=
  .mk none none none none none none none (some st) none none none

mutual

/-- Model of `parseTypeTag`: primitives by exact match, `vector<…>` by prefix and
suffix, struct types via the bracket-aware splitters; everything else is
an `unknown type` error.  The Go recursion always descends to strictly
shorter strings, so a fuel of the string length suffices; running out of
fuel cannot happen on reachable inputs. -/
def parseTypeTag : Nat → List Nat → Except Err TypeTag
  | 0, _ => .error .typeParseError
  | fuel + 1, s =>
      if s = [98, 111, 111, 108] then .ok tagBool
      else if s = [117, 56] then .ok tagU8
      else if s = [117, 49, 54] then .ok tagU16
      else if s = [117, 51, 50] then .ok tagU32
      else if s = [117, 54, 52] then .ok tagU64
      else if s = [117, 49, 50, 56] then .ok tagU128
      else if s = [117, 50, 53, 54] then .ok tagU256
      else if s = [97, 100, 100, 114, 101, 115, 115] then .ok tagAddress
      else if s = [115, 105, 103, 110, 101, 114] then .ok tagSigner
      else if [118, 101, 99, 116, 111, 114, 60].isPrefixOf s &&
          [62].isSuffixOf s then
        (parseTypeTag fuel ((s.drop 7).dropLast)).map mkVectorTag
      else if containsSub doubleColon s then
        match parseStructTypeParts s with
        | p0 :: p1 :: p2 :: _ =>
            match convertMgoAddressStringToBytes p0 with
            | none => .error .invalidMgoAddress
            | some ab =>
                if containsSub [60] p2 && [62].isSuffixOf p2 then
                  (parseTypeTagList fuel
                      (parseTypeParameters
                        ((p2.drop (p2.findIdx (· == 60) + 1)).dropLast))).map
                    (fun ps =>
                      mkStructTagT ⟨ab, p1, p2.take (p2.findIdx (· == 60)), ps⟩)
                else .ok (mkStructTagT ⟨ab, p1, p2, []⟩)
        | _ => .error .typeParseError
      else .error .typeParseError
termination_by fuel _ => (fuel, 0)

/-- Type-parameter strings parsed in order, first error wins. -/
def parseTypeTagList : Nat → List (List Nat) → Except Err (List TypeTag)
  | _, [] => .ok []
  | fuel, s :: rest =>
      match parseTypeTag fuel s with
      | .error e => .error e
      | .ok t =>
          match parseTypeTagList fuel rest with
          | .error e => .error e
          | .ok ts => .ok (t :: ts)
termination_by fuel l => (fuel, l.length + 1)

end

/-- Model of `parseTypeTag` at the Go call sites (no fuel in Go; the string length
bounds the recursion depth). -/
def parseTypeTagTop (s : List Nat) : Except Err TypeTag :=
  parseTypeTag (s.length + 1) s

/-- Parse each type-argument string of a MoveCall. -/
def parseTypeTagsTop : List (List Nat) → Except Err (List TypeTag)
  | [] => .ok []
  | s :: rest =>
      match parseTypeTagTop s with
      | .error e => .error e
      | .ok t =>
          match parseTypeTagsTop rest with
          | .error e => .error e
          | .ok ts => .ok (t :: ts)

/-- Model of `strings.Split(target, "::")` (plain, not bracket-aware). -/
def splitOnDoubleColonGo : List Nat → List Nat → List (List Nat)
  | [], current => [current]
  | 58 :: 58 :: rest, current => current :: splitOnDoubleColonGo rest []
  | c :: rest, current => splitOnDoubleColonGo rest (current ++ [c])

def splitTarget (s : List Nat) : List (List Nat) := splitOnDoubleColonGo s []

/-- A `Command` with no variant set. -/
def emptyCommand : Command :=
  { moveCall := none, transferObjects := none, splitCoins := none,
    mergeCoins := none, publish := none, makeMoveVec := none,
    upgrade := none }

/-- Model of `ConvertBytesToMgoAddressBytes` over a module list: each blob must be
exactly 32 bytes. -/
def convertModuleBlobs : List (List Nat) → Except Err (List (List Nat))
  | [] => .ok []
  | m :: rest =>
      if m.length = 32 then
        match convertModuleBlobs rest with
        | .error e => .error e
        | .ok ms => .ok (m :: ms)
      else .error .invalidMgoAddress

/-- Model of `ConvertMgoAddressStringToBytes` over a dependency string list. -/
def convertAddrStrings : List (List Nat) → Except Err (List (List Nat))
  | [] => .ok []
  | s :: rest =>
      match convertMgoAddressStringToBytes s with
      | none => .error .invalidMgoAddress
      | some ab =>
          match convertAddrStrings rest with
          | .error e => .error e
          | .ok asx => .ok (ab :: asx)

/-- The command branch of `DeserializeFromJSON`'s `switch tx.Kind`. -/
def deserializeCommand (tx : STransaction) : Except Err Command :=
  match tx.kind with
  | .makeMoveVec =>
      let m : MakeMoveVec :=
        { typeValue := tx.typeValue,
          elements := tx.objects.map deserializeArgument }
      .ok { emptyCommand with makeMoveVec := some m }
  | .mergeCoins =>
      let m : MergeCoins :=
        { destination := deserializeArgument tx.destination,
          sources := tx.sources.map deserializeArgument }
      .ok { emptyCommand with mergeCoins := some m }
  | .moveCall =>
      match splitTarget tx.target with
      | [p0, p1, p2] =>
          match convertMgoAddressStringToBytes p0 with
          | none => .error .invalidMgoAddress
          | some ab =>
              match parseTypeTagsTop tx.typeArguments with
              | .error e => .error e
              | .ok tags =>
                  let mc : ProgrammableMoveCall :=
                    { package := ab, module := p1, function := p2,
                      typeArguments := tags,
                      arguments := tx.arguments.map deserializeArgument }
                  .ok { emptyCommand with moveCall := some mc }
      | _ => .error .typeParseError
  | .publish =>
      match convertModuleBlobs tx.modules with
      | .error e => .error e
      | .ok ms =>
          match convertAddrStrings tx.dependencies with
          | .error e => .error e
          | .ok deps =>
              let p : Publish := { modules := ms, dependencies := deps }
              .ok { emptyCommand with publish := some p }
  | .splitCoins =>
      let sc : SplitCoins :=
        { coin := deserializeArgument tx.coin,
          amount := tx.amounts.map deserializeArgument }
      .ok { emptyCommand with splitCoins := some sc }
  | .transferObjects =>
      let t : TransferObjects :=
        { objects := tx.objects.map deserializeArgument,
          address := deserializeArgument tx.address }
      .ok { emptyCommand with transferObjects := some t }
  | .upgrade =>
      match convertModuleBlobs tx.modules with
      | .error e => .error e
      | .ok ms =>
          match convertAddrStrings tx.dependencies with
          | .error e => .error e
          | .ok deps =>
              match convertMgoAddressStringToBytes tx.packageId with
              | none => .error .invalidMgoAddress
              | some ab =>
                  let u : Upgrade :=
                    { modules := ms, dependencies := deps, package := ab,
                      ticket := deserializeArgument tx.ticket }
                  .ok { emptyCommand with upgrade := some u }

/-- The input branch of `DeserializeFromJSON`: note that the digest of an
ImmOrOwned or Receiving object is NOT reconstructed — the code stores the
empty `model.ObjectDigestBytes{}` ("simplified" per its own comment). -/
def deserializeInput (si : SInput) : Except Err CallArg :=
  match si.value with
  | .immOrOwned oid ver _dig =>
      match convertMgoAddressStringToBytes oid with
      | none => .error .invalidMgoAddress
      | some ab =>
          let r : MgoObjectRef := { objectId := ab, version := ver, digest := [] }
          let oa : ObjectArg :=
            { immOrOwnedObject := some r, sharedObject := none,
              receiving := none }
          .ok { pureBytes := none, object := some oa, unresolvedPure := none,
                unresolvedObject := none }
  | .receiving oid ver _dig =>
      match convertMgoAddressStringToBytes oid with
      | none => .error .invalidMgoAddress
      | some ab =>
          let r : MgoObjectRef := { objectId := ab, version := ver, digest := [] }
          let oa : ObjectArg :=
            { immOrOwnedObject := none, sharedObject := none,
              receiving := some r }
          .ok { pureBytes := none, object := some oa, unresolvedPure := none,
                unresolvedObject := none }
  | .sharedObj oid isv mu =>
      match convertMgoAddressStringToBytes oid with
      | none => .error .invalidMgoAddress
      | some ab =>
          let r : SharedObjectRef :=
            { objectId := ab, initialSharedVersion := isv, mutable := mu }
          let oa : ObjectArg :=
            { immOrOwnedObject := none, sharedObject := some r,
              receiving := none }
          .ok { pureBytes := none, object := some oa, unresolvedPure := none,
                unresolvedObject := none }
  | .unresolvedObj oid =>
      match convertMgoAddressStringToBytes oid with
      | none => .error .invalidMgoAddress
      | some ab =>
          .ok { pureBytes := none, object := none, unresolvedPure := none,
                unresolvedObject := some ab }
  | .pureB64 b64 =>
      match base64Decode b64 with
      | none => .error .hexDecodePanic
      | some bs =>
          .ok { pureBytes := some bs, object := none, unresolvedPure := none,
                unresolvedObject := none }
  | .pureArr bytes =>
      .ok { pureBytes := some bytes, object := none, unresolvedPure := none,
            unresolvedObject := none }
  | .pureOther =>
      .ok { pureBytes := none, object := none, unresolvedPure := some (),
            unresolvedObject := none }
  | .objectEmptyVal =>
      .ok { pureBytes := none, object := none, unresolvedPure := none,
            unresolvedObject := none }
  | .emptyVal =>
      .ok { pureBytes := none, object := none, unresolvedPure := none,
            unresolvedObject := none }

/-- Monadic map of `deserializeInput` over the input list. -/
def deserializeInputs : List SInput → Except Err (List CallArg)
  | [] => .ok []
  | si :: rest =>
      match deserializeInput si with
      | .error e => .error e
      | .ok c =>
          match deserializeInputs rest with
          | .error e => .error e
          | .ok cs => .ok (c :: cs)

/-- Monadic map of `deserializeCommand` over the command list. -/
def deserializeCommands : List STransaction → Except Err (List Command)
  | [] => .ok []
  | tx :: rest =>
      match deserializeCommand tx with
      | .error e => .error e
      | .ok c =>
          match deserializeCommands rest with
          | .error e => .error e
          | .ok cs => .ok (c :: cs)

/-- Model of `transaction.DeserializeFromJSON` (after `json.Unmarshal` has rebuilt
the serialized struct): reconstruct the typed tree.  The gas-payment
objects come back with version 0 and an empty digest ("simplified" per the
code's own comments). -/
def deserializeFromSerialized (s : STxDataV1) : Except Err TransactionData :=
  match (match s.sender with
         | [] => .ok none
         | str =>
             match convertMgoAddressStringToBytes str with
             | none => .error .invalidMgoAddress
             | some ab => .ok (some ab) : Except Err (Option (List Nat))) with
  | .error e => .error e
  | .ok sender' =>
  match (match s.gasOwner with
         | [] => .ok none
         | str =>
             match convertMgoAddressStringToBytes str with
             | none => .error .invalidMgoAddress
             | some ab => .ok (some ab) : Except Err (Option (List Nat))) with
  | .error e => .error e
  | .ok owner' =>
  match (match s.gasBudget with
         | [] => .ok none
         | str =>
             match parseDecimal str with
             | none => .error .typeParseError
             | some n => .ok (some n) : Except Err (Option Nat)) with
  | .error e => .error e
  | .ok budget' =>
  match (match s.gasPrice with
         | [] => .ok none
         | str =>
             match parseDecimal str with
             | none => .error .typeParseError
             | some n => .ok (some n) : Except Err (Option Nat)) with
  | .error e => .error e
  | .ok price' =>
  match (match s.gasPayment with
         | [] => .ok none
         | l =>
             (convertAddrStrings l).map (fun abs =>
               some (abs.map (fun ab =>
                 ({ objectId := ab, version := 0, digest := [] } :
                   MgoObjectRef)))) :
           Except Err (Option (List MgoObjectRef))) with
  | .error e => .error e
  | .ok payment' =>
  match deserializeInputs s.inputs with
  | .error e => .error e
  | .ok inputs' =>
  match deserializeCommands s.transactions with
  | .error e => .error e
  | .ok commands' =>
      let pt : ProgrammableTransaction :=
        { inputs := inputs', commands := commands' }
      let gd : GasData :=
        { payment := payment', owner := owner', price := price',
          budget := budget' }
      let ex : Option TransactionExpiration :=
        match s.expiration with
        | none => none
        | some (some ep) => some { noneSlot := none, epoch := some ep }
        | some none => some { noneSlot := some (), epoch := none }
      let v1 : TransactionDataV1 :=
        { kind := { programmableTransaction := some pt }, sender := sender',
          gasData := gd, expiration := ex }
      .ok { v1 := some v1 }

/-- The composition the JSON round-trip claim quantifies over:
`DeserializeFromJSON ∘ json ∘ SerializeV1`. -/
def jsonRoundTrip (td : TransactionData) : Except Err TransactionData :=
  match serializeV1 td with
  | .error e => .error e
  | .ok s => deserializeFromSerialized s

/-- Re-encoding after the round trip. -/
def roundTripEncode (td : TransactionData) : Except Err (List Nat) :=
  match jsonRoundTrip td with
  | .error e => .error e
  | .ok td' => encTransactionData td'

/-- The digest of the first input when it is an owned/immutable object
reference. -/
def firstImmDigest (td : TransactionData) : Option (List Nat) :=
  match td.v1 with
  | none => none
  | some v1 =>
      match v1.kind.programmableTransaction with
      | none => none
      | some pt =>
          match pt.inputs with
          | [] => none
          | c :: _ =>
              match c.object with
              | none => none
              | some oa =>
                  match oa.immOrOwnedObject with
                  | none => none
                  | some r => some r.digest

/-- A builder-producible tree with an owned object input carrying a
non-zero digest and a gas payment list with a non-zero version and
digest. -/
def c2Tree : TransactionData :=
  let immRef : MgoObjectRef :=
    { objectId := List.replicate 32 3, version := 3,
      digest := List.replicate 32 2 }
  let oa : ObjectArg :=
    { immOrOwnedObject := some immRef, sharedObject := none,
      receiving := none }
  let input0 : CallArg :=
    { pureBytes := none, object := some oa, unresolvedPure := none,
      unresolvedObject := none }
  let payRef : MgoObjectRef :=
    { objectId := List.replicate 32 4, version := 7,
      digest := List.replicate 32 5 }
  let gd : GasData :=
    { payment := some [payRef], owner := some (List.replicate 32 1),
      price := some 5, budget := some 9 }
  let pt : ProgrammableTransaction := { inputs := [input0], commands := [] }
  let v1 : TransactionDataV1 :=
    { kind := { programmableTransaction := some pt },
      sender := some (List.replicate 32 1), gasData := gd,
      expiration := none }
  { v1 := some v1 }

theorem toLowerByte_hexDigitChar (d : Nat) :
    toLowerByte (hexDigitChar d) = hexDigitChar d := by
  unfold toLowerByte hexDigitChar
  split <;> split <;> omega

theorem hexCharVal_hexDigitChar {d : Nat} (h : d < 16) :
    hexCharVal (hexDigitChar d) = some d := by
  rcases Nat.lt_or_ge d 10 with h10 | h10
  · have hd : hexDigitChar d = 48 + d := if_pos h10
    rw [hd]
    unfold hexCharVal
    rw [if_pos (by omega)]
    simp only [Option.some.injEq]
    omega
  · have hd : hexDigitChar d = 87 + d := if_neg (by omega)
    rw [hd]
    unfold hexCharVal
    rw [if_neg (by omega), if_pos (by omega)]
    simp only [Option.some.injEq]
    omega

theorem hexDecode_hexEncode {bs : List Nat} (h : ∀ b ∈ bs, b < 256) :
    hexDecode (hexEncode bs) = some bs := by
  induction bs with
  | nil => rfl
  | cons b rest ih =>
      have hb : b < 256 := h b (List.mem_cons_self b rest)
      have hrest := ih (fun x hx => h x (List.mem_cons_of_mem b hx))
      simp only [hexEncode, List.flatMap_cons] at *
      simp only [List.cons_append, List.nil_append, hexDecode,
        hexCharVal_hexDigitChar (show b / 16 < 16 by omega),
        hexCharVal_hexDigitChar (show b % 16 < 16 by omega),
        hrest, Option.bind_eq_bind, Option.some_bind, Option.some.injEq]
      have : b / 16 * 16 + b % 16 = b := by omega
      rw [this]
      rw [show ([] : List Nat).append
            (rest.flatMap fun b => [hexDigitChar (b / 16), hexDigitChar (b % 16)]) =
          rest.flatMap fun b => [hexDigitChar (b / 16), hexDigitChar (b % 16)] from rfl]
      rw [hrest]
      rfl

theorem hexEncode_length (bs : List Nat) :
    (hexEncode bs).length = 2 * bs.length := by
  induction bs with
  | nil => rfl
  | cons b rest ih =>
      simp only [hexEncode, List.flatMap_cons, List.length_append] at *
      simp [ih]
      omega

/-- Converting a 32-byte address to its string form and back is the
identity: this is the composition the builder performs inside
`Transaction.Object` before searching the inputs. -/
theorem convert_address_roundtrip {addr : List Nat}
    (hlen : addr.length = 32) (hbytes : ∀ b ∈ addr, b < 256) :
    convertMgoAddressStringToBytes (convertMgoAddressBytesToString addr) =
      some addr := by
  have henc : hexDecode (hexEncode addr) = some addr := hexDecode_hexEncode hbytes
  have hlen64 : (hexEncode addr).length = 64 := by rw [hexEncode_length, hlen]
  have hlower : (hexEncode addr).map toLowerByte = hexEncode addr := by
    unfold hexEncode
    rw [List.map_flatMap]
    congr 1
    funext b
    simp [toLowerByte_hexDigitChar]
  have hnorm :
      normalizeMgoAddress (convertMgoAddressBytesToString addr) =
        some (zeroXBytes ++ hexEncode addr) := by
    unfold normalizeMgoAddress convertMgoAddressBytesToString
    simp only [List.map_append, hlower]
    have hpre : zeroXBytes.isPrefixOf
        (List.map toLowerByte zeroXBytes ++ hexEncode addr) = true := by
      simp [zeroXBytes, toLowerByte, List.isPrefixOf]
    simp only [hpre, if_true]
    have hdrop : (List.map toLowerByte zeroXBytes ++ hexEncode addr).drop 2 =
        hexEncode addr := by
      simp [zeroXBytes, toLowerByte]
    rw [hdrop, if_pos (by omega), hlen64]
    simp
  unfold convertMgoAddressStringToBytes
  rw [hnorm]
  simp only [Option.bind_eq_bind, Option.some_bind]
  have : (zeroXBytes ++ hexEncode addr).drop 2 = hexEncode addr := by
    simp [zeroXBytes]
  rw [this, henc]
  simp only [Option.some_bind]
  rw [if_pos hlen]
  rfl

theorem findInputIdxFrom_none {ab : List Nat} {l : List CallArg}
    (h : ∀ c ∈ l, callArgMatchesId c ab = false) (n : Nat) :
    findInputIdxFrom ab l n = none := by
  induction l generalizing n with
  | nil => rfl
  | cons c rest ih =>
      simp only [findInputIdxFrom, h c (List.mem_cons_self c rest),
        Bool.false_eq_true, if_false]
      exact ih (fun x hx => h x (List.mem_cons_of_mem c hx)) (n + 1)

theorem findInputIdxFrom_append_match {ab : List Nat} {l : List CallArg}
    {c₀ : CallArg} (h : ∀ c ∈ l, callArgMatchesId c ab = false)
    (hc : callArgMatchesId c₀ ab = true) (n : Nat) :
    findInputIdxFrom ab (l ++ [c₀]) n = some (n + l.length) := by
  induction l generalizing n with
  | nil => simp [findInputIdxFrom, hc]
  | cons c rest ih =>
      simp only [List.cons_append, findInputIdxFrom,
        h c (List.mem_cons_self c rest), Bool.false_eq_true, if_false,
        List.append_eq]
      rw [ih (fun x hx => h x (List.mem_cons_of_mem c hx)) (n + 1)]
      simp only [List.length_cons, Option.some.injEq]
      omega

theorem getElem?_append_singleton {α : Type} (l : List α) (c : α) :
    (l ++ [c])[l.length]? = some c := by
  induction l with
  | nil => rfl
  | cons x rest ih => simp [ih]

theorem set_append_singleton {α : Type} (l : List α) (c c' : α) :
    (l ++ [c]).set l.length c' = l ++ [c'] := by
  induction l with
  | nil => rfl
  | cons x rest ih => simp [ih]

theorem mkSharedCallArg_matches (so : SharedObjectRef) (id : List Nat)
    (h : so.objectId = id) :
    callArgMatchesId (mkSharedCallArg so) id = true := by
  simp [mkSharedCallArg, callArgMatchesId, h]

theorem except_map_ok {ε α β : Type} (a : α) (f : α → β) :
    (Except.ok a : Except ε α).map f = .ok (f a) := rfl

theorem getInputObjectIndex_stored (id : List Nat)
    (hlen : id.length = 32) (hb : ∀ b ∈ id, b < 256)
    (inputs0 : List CallArg)
    (h0 : ∀ c ∈ inputs0, callArgMatchesId c id = false)
    (v : Nat) (m : Bool) :
    getInputObjectIndex (inputs0 ++ [mkSharedCallArg ⟨id, v, m⟩])
      (convertMgoAddressBytesToString id) =
      some (inputs0.length % 65536) := by
  unfold getInputObjectIndex
  rw [convert_address_roundtrip hlen hb]
  show Option.map (fun i => i % 65536)
    (findInputIdxFrom id (inputs0 ++ [mkSharedCallArg ⟨id, v, m⟩]) 0) =
    some (inputs0.length % 65536)
  rw [findInputIdxFrom_append_match h0
    (mkSharedCallArg_matches ⟨id, v, m⟩ id rfl) 0]
  simp

theorem upgradeSharedAt_stored (inputs0 : List CallArg) (id : List Nat)
    (v : Nat) (m : Bool) :
    upgradeSharedAt (inputs0 ++ [mkSharedCallArg ⟨id, v, m⟩])
      inputs0.length = .ok (inputs0 ++ [mkSharedCallArg ⟨id, v, true⟩]) := by
  unfold upgradeSharedAt
  rw [getElem?_append_singleton inputs0 (mkSharedCallArg ⟨id, v, m⟩)]
  show Except.ok ((inputs0 ++ [mkSharedCallArg ⟨id, v, m⟩]).set inputs0.length
    (mkSharedCallArg ⟨id, v, true⟩)) = _
  rw [set_append_singleton]

/-- The dedup hit path of `Object` on a state whose inputs are a
non-matching prefix followed by the one stored shared input. -/
theorem objectSeq_after_first (id : List Nat)
    (hlen : id.length = 32) (hb : ∀ b ∈ id, b < 256)
    (inputs0 : List CallArg) (hsmall : inputs0.length < 65536)
    (h0 : ∀ c ∈ inputs0, callArgMatchesId c id = false)
    (v1 : TransactionDataV1) (pt : ProgrammableTransaction)
    (rs : List SharedObjectRef) (hid : ∀ r ∈ rs, r.objectId = id)
    (v : Nat) (m : Bool) :
    objectSeq (setInputs v1 pt
        (inputs0 ++ [mkSharedCallArg ⟨id, v, m⟩])) rs =
      .ok (List.replicate rs.length (mkInputArg inputs0.length),
        setInputs v1 pt
          (inputs0 ++ [mkSharedCallArg ⟨id, v, m || rs.any (·.mutable)⟩])) := by
  induction rs generalizing m with
  | nil => simp [objectSeq]
  | cons r rest ih =>
      have hridr : r.objectId = id := hid r (List.mem_cons_self r rest)
      have hfind := getInputObjectIndex_stored id hlen hb inputs0 h0 v m
      rw [Nat.mod_eq_of_lt hsmall] at hfind
      simp only [mkSharedCallArg] at hfind
      have hupg := upgradeSharedAt_stored inputs0 id v m
      simp only [mkSharedCallArg] at hupg
      have hstep :
          transactionObject (setInputs v1 pt
              (inputs0 ++ [mkSharedCallArg ⟨id, v, m⟩]))
            (.fromCallArg (mkSharedCallArg r)) =
          .ok (mkInputArg inputs0.length,
            setInputs v1 pt
              (inputs0 ++ [mkSharedCallArg ⟨id, v, m || r.mutable⟩])) := by
        unfold transactionObject
        simp only [mkSharedCallArg, setInputs, hridr, hfind]
        rcases hmut : r.mutable with _ | _
        · simp only [Bool.false_eq_true, if_false, Bool.or_false]
        · simp only [if_true, Bool.or_true, hupg, except_map_ok]
      simp only [objectSeq, hstep]
      rw [ih (fun x hx => hid x (List.mem_cons_of_mem r hx)) (m || r.mutable)]
      simp only [List.any_cons, Bool.or_assoc, List.length_cons,
        List.replicate_succ]

/-- C1 main lemma: a full sequence of shared-object `Object` calls on a
builder state holding no input for that id. -/
theorem objectSeq_dedup (id : List Nat)
    (hlen : id.length = 32) (hb : ∀ b ∈ id, b < 256)
    (v1 : TransactionDataV1) (pt : ProgrammableTransaction)
    (hpt : v1.kind.programmableTransaction = some pt)
    (hsmall : pt.inputs.length < 65536)
    (h0 : ∀ c ∈ pt.inputs, callArgMatchesId c id = false)
    (r0 : SharedObjectRef) (rs : List SharedObjectRef)
    (hid : ∀ r ∈ r0 :: rs, r.objectId = id) :
    objectSeq v1 (r0 :: rs) =
      .ok (List.replicate (r0 :: rs).length (mkInputArg pt.inputs.length),
        setInputs v1 pt
          (pt.inputs ++
            [mkSharedCallArg
              ⟨id, r0.initialSharedVersion, (r0 :: rs).any (·.mutable)⟩])) := by
  have hr0 : r0.objectId = id := hid r0 (List.mem_cons_self r0 rs)
  have hmiss :
      getInputObjectIndex pt.inputs
        (convertMgoAddressBytesToString r0.objectId) = none := by
    unfold getInputObjectIndex
    rw [hr0, convert_address_roundtrip hlen hb]
    show Option.map (fun i => i % 65536) (findInputIdxFrom id pt.inputs 0) = none
    rw [findInputIdxFrom_none h0 0]
    rfl
  have hstep :
      transactionObject v1 (.fromCallArg (mkSharedCallArg r0)) =
      .ok (mkInputArg (pt.inputs.length % 65536),
        setInputs v1 pt (pt.inputs ++ [mkSharedCallArg r0])) := by
    unfold transactionObject
    simp only [mkSharedCallArg, hpt, hmiss]
    unfold addInput
    simp only [hpt, setInputs, mkSharedCallArg]
  have hr0eta : mkSharedCallArg r0 =
      mkSharedCallArg ⟨id, r0.initialSharedVersion, r0.mutable⟩ := by
    rw [← hr0]
  simp only [objectSeq, hstep]
  rw [hr0eta, Nat.mod_eq_of_lt hsmall,
    objectSeq_after_first id hlen hb pt.inputs hsmall h0 v1 pt rs
      (fun x hx => hid x (List.mem_cons_of_mem r0 hx))
      r0.initialSharedVersion r0.mutable]
  simp only [List.length_cons, List.any_cons, List.replicate_succ]

theorem isSharedInputWithId_imp_matches (c : CallArg) (id : List Nat)
    (h : isSharedInputWithId c id = true) : callArgMatchesId c id = true := by
  obtain ⟨p, ob, up, uo⟩ := c
  rcases ob with _ | oa
  · simp [isSharedInputWithId] at h
  · obtain ⟨imm, sh, rc⟩ := oa
    rcases sh with _ | so
    · simp [isSharedInputWithId] at h
    · simp only [isSharedInputWithId] at h
      simp only [callArgMatchesId]
      rw [h]
      simp

theorem isSharedInputWithId_false_of_no_match (c : CallArg) (id : List Nat)
    (h : callArgMatchesId c id = false) :
    isSharedInputWithId c id = false := by
  cases hsi : isSharedInputWithId c id
  · rfl
  · rw [isSharedInputWithId_imp_matches c id hsi] at h
    cases h

theorem countSharedInputsWithId_no_match {inputs : List CallArg}
    {id : List Nat} (h : ∀ c ∈ inputs, callArgMatchesId c id = false) :
    countSharedInputsWithId inputs id = 0 := by
  unfold countSharedInputsWithId
  rw [List.countP_eq_zero]
  intro c hc
  rw [isSharedInputWithId_false_of_no_match c id (h c hc)]
  simp

/-- C1.  For every sequence of `Object` calls on one builder passing
shared-object call-args with the same object id — on a builder state whose
existing inputs contain no object input with that id — the run succeeds,
every call returns `Argument::Input` of the index at which the single new
input was appended, the final inputs are the old inputs plus exactly one
shared-object input for that id, and its `Mutable` flag is the logical OR
of all `Mutable` flags passed in the sequence. -/
theorem shared_object_dedup (id : List Nat)
    (hlen : id.length = 32) (hb : ∀ b ∈ id, b < 256)
    (v1 : TransactionDataV1) (pt : ProgrammableTransaction)
    (hpt : v1.kind.programmableTransaction = some pt)
    (hsmall : pt.inputs.length < 65536)
    (h0 : ∀ c ∈ pt.inputs, callArgMatchesId c id = false)
    (r0 : SharedObjectRef) (rs : List SharedObjectRef)
    (hid : ∀ r ∈ r0 :: rs, r.objectId = id) :
    objectSeq v1 (r0 :: rs) =
      .ok (List.replicate (r0 :: rs).length (mkInputArg pt.inputs.length),
        setInputs v1 pt
          (pt.inputs ++
            [mkSharedCallArg
              ⟨id, r0.initialSharedVersion, (r0 :: rs).any (·.mutable)⟩])) ∧
    countSharedInputsWithId
      (pt.inputs ++
        [mkSharedCallArg
          ⟨id, r0.initialSharedVersion, (r0 :: rs).any (·.mutable)⟩]) id = 1 := by
  refine ⟨objectSeq_dedup id hlen hb v1 pt hpt hsmall h0 r0 rs hid, ?_⟩
  unfold countSharedInputsWithId
  rw [List.countP_append]
  have h1 := countSharedInputsWithId_no_match h0
  unfold countSharedInputsWithId at h1
  rw [h1]
  simp [mkSharedCallArg, isSharedInputWithId]

/-- C1 witness: two calls for the same id, first immutable then mutable,
on a fresh builder: one shared input with `mutable = true`, both calls
returning `Input 0`. -/
theorem shared_object_dedup_witness :
    objectSeq newTransactionDataV1
      [⟨List.replicate 32 7, 5, false⟩, ⟨List.replicate 32 7, 5, true⟩] =
      .ok ([mkInputArg 0, mkInputArg 0],
        setInputs newTransactionDataV1 { inputs := [], commands := [] }
          [mkSharedCallArg ⟨List.replicate 32 7, 5, true⟩]) ∧
    countSharedInputsWithId
      [mkSharedCallArg ⟨List.replicate 32 7, 5, true⟩]
      (List.replicate 32 7) = 1 := by
  have h := shared_object_dedup (List.replicate 32 7) (by simp)
    (by intro b hb; rw [List.eq_of_mem_replicate hb]; omega)
    newTransactionDataV1 { inputs := [], commands := [] } rfl
    (by simp) (by simp)
    ⟨List.replicate 32 7, 5, false⟩ [⟨List.replicate 32 7, 5, true⟩]
    (by
      intro r hr
      simp only [List.mem_cons, List.mem_singleton] at hr
      rcases hr with h | h | h
      · rw [h]
      · rw [h]
      · cases h)
  simpa using h

/-- C3 (behaviour of `Transaction.Pure` on strings, at the failing
inputs): the non-hex two-character string `"zz"` passes
`IsValidMgoAddress` — the validator checks no hexadecimal digits — so
`Pure` takes the address branch and panics in the hex conversion instead of
storing the SDBE string encoding; a 65-character string panics inside
`strings.Repeat` before any classification happens. -/
theorem pure_string_not_encoded_as_string :
    isValidMgoAddress [122, 122] = some true ∧
    transactionPure newTransactionDataV1 (.str [122, 122]) =
      .error .hexDecodePanic ∧
    isValidMgoAddress (List.replicate 65 102) = none ∧
    transactionPure newTransactionDataV1 (.str (List.replicate 65 102)) =
      .error .negativeRepeatPanic := by
  exact ⟨rfl, rfl, rfl, rfl⟩

theorem buildTail_snd (tx : Transaction) (v1 : TransactionDataV1) :
    (buildTail tx v1).2 = tx := by
  unfold buildTail
  split
  · rcases h : encTransactionData { v1 := some v1 } with e | bs <;> simp [h]
  · rfl

theorem build_onlyKind_no_mutation (keccak : List Nat → List Nat)
    (tx : Transaction) : (transactionBuild keccak tx true).2 = tx := by
  unfold transactionBuild
  rcases hv : tx.data.v1 with _ | v1
  · rfl
  · simp only [if_true]
    rcases h : encTransactionKind v1.kind with e | bs <;> simp [h]

/-- C4 counterexample.  With sender, payment, price and budget set, the
gas owner unset and a signer present, `Build(false)` succeeds (defaulting
the owner from the signer) — it does not return `ErrGasDataNotAllSet`
although the four gas-data fields are not all set at call time. -/
theorem build_gas_unset_owner_succeeds :
    v1OwnerUnset.gasData.owner = none ∧
    gasDataIsAllSet v1OwnerUnset.gasData = false ∧
    (transactionBuild keccakZero txOwnerUnset false).1 ≠
      .error .gasDataNotAllSet ∧
    exceptIsOk (transactionBuild keccakZero txOwnerUnset false).1 = true := by
  refine ⟨rfl, rfl, ?_, by decide⟩
  decide

/-- C4 (amended).  `Build(true)` encodes just the transaction-kind union
(no sender or gas data consulted) and never mutates the state;
`Build(false)` returns `ErrSenderNotSet` whenever the sender is unset;
with the sender and the gas owner set it returns `ErrGasDataNotAllSet`
exactly when the four gas-data fields are not all set, and otherwise the
base64 of the bytes `TransactionData.Marshal` produces for the full
envelope, propagating `Marshal`'s own failure when it produces none; with
the sender set, the owner unset and no signer it dereferences a nil
pointer; with the sender set, the owner unset and a signer present it
first defaults the owner to the address derived from the signer's public
key and then applies the same all-set check and marshal to the defaulted
data. -/
theorem build_dispatch (keccak : List Nat → List Nat) (tx : Transaction)
    (v1 : TransactionDataV1) (hv1 : tx.data.v1 = some v1) :
    ((transactionBuild keccak tx true).2 = tx ∧
     (transactionBuild keccak tx true).1 =
       (encTransactionKind v1.kind).map base64Encode) ∧
    (v1.sender = none →
      transactionBuild keccak tx false = (.error .senderNotSet, tx)) ∧
    (v1.sender.isSome = true → v1.gasData.owner.isSome = true →
      transactionBuild keccak tx false =
        (if gasDataIsAllSet v1.gasData then
           (encTransactionData { v1 := some v1 }).map base64Encode
         else .error .gasDataNotAllSet, tx)) ∧
    (v1.sender.isSome = true → v1.gasData.owner = none → tx.signer = none →
      transactionBuild keccak tx false = (.error .nilDereferencePanic, tx)) ∧
    (∀ k ow, v1.sender.isSome = true → v1.gasData.owner = none →
      tx.signer = some k →
      convertMgoAddressStringToBytes (keypairMgoAddress keccak k) = some ow →
      transactionBuild keccak tx false =
        (if gasDataIsAllSet { v1.gasData with owner := some ow } then
           (encTransactionData
             { v1 := some { v1 with gasData :=
                 { v1.gasData with owner := some ow } } }).map base64Encode
         else .error .gasDataNotAllSet,
         withGasOwner tx v1 ow)) := by
  refine ⟨⟨build_onlyKind_no_mutation keccak tx, ?_⟩, ?_, ?_, ?_, ?_⟩
  · unfold transactionBuild
    rw [hv1]
    simp only [if_true]
    rcases h : encTransactionKind v1.kind with e | bs <;> simp [h, Except.map]
  · intro hsender
    unfold transactionBuild
    rw [hv1]
    simp [hsender]
  · intro hsender howner
    unfold transactionBuild
    rw [hv1]
    rcases hs : v1.sender with _ | s
    · rw [hs] at hsender; cases hsender
    · rcases ho : v1.gasData.owner with _ | ow
      · rw [ho] at howner; cases howner
      · simp only [hs, Option.isNone_some, Bool.false_eq_true, if_false, ho]
        unfold buildTail
        cases hgas : gasDataIsAllSet v1.gasData
        · simp [hgas]
        · simp only [hgas, if_true]
          rcases h : encTransactionData { v1 := some v1 } with e | bs <;>
            simp [h, Except.map]
  · intro hsender howner hsigner
    have hnone : v1.sender.isNone = false := by
      rcases hv : v1.sender with _ | s
      · rw [hv] at hsender; cases hsender
      · rfl
    unfold transactionBuild
    rw [hv1]
    simp [hnone, howner, hsigner]
  · intro k ow hsender howner hsigner hconv
    have hnone : v1.sender.isNone = false := by
      rcases hv : v1.sender with _ | s
      · rw [hv] at hsender; cases hsender
      · rfl
    unfold transactionBuild
    rw [hv1]
    simp only [hnone, Bool.false_eq_true, if_false, howner, hsigner, hconv]
    unfold buildTail
    cases hgas : gasDataIsAllSet { v1.gasData with owner := some ow }
    · simp only [hgas, Bool.false_eq_true, if_false]
      rw [← hsigner]
      rfl
    · simp only [hgas, if_true]
      rcases h : encTransactionData
          { v1 := some { v1 with gasData :=
              { v1.gasData with owner := some ow } } } with e | bs <;>
        simp only [h, Except.map] <;> rw [← hsigner] <;> rfl

/-- C4 witness for the amended dispatch: the owner-defaulting path at a
concrete state whose sender, payment, price, budget and signer are set and
whose gas owner is not. -/
theorem build_dispatch_witness :
    transactionBuild keccakZero txOwnerUnset false =
      (if gasDataIsAllSet { v1OwnerUnset.gasData with
           owner := some (List.replicate 32 0) } then
         (encTransactionData
           { v1 := some { v1OwnerUnset with gasData :=
               { v1OwnerUnset.gasData with
                 owner := some (List.replicate 32 0) } } }).map base64Encode
       else .error .gasDataNotAllSet,
       withGasOwner txOwnerUnset v1OwnerUnset (List.replicate 32 0)) :=
  (build_dispatch keccakZero txOwnerUnset v1OwnerUnset rfl).2.2.2.2
    kpA (List.replicate 32 0) rfl rfl rfl (by decide)

/-- C10.  If the sender, gas payment, gas price and gas budget are set,
the gas owner is not, and a signer is set, then `Build(false)` leaves the
transaction in exactly the state with the owner replaced by the address
derived from the signer's public key and nothing else changed — and
`Build(true)` never mutates the transaction at all. -/
theorem build_false_gas_owner_frame (keccak : List Nat → List Nat)
    (tx : Transaction) (v1 : TransactionDataV1) (k : Keypair) (ow : List Nat)
    (hv1 : tx.data.v1 = some v1)
    (hsender : v1.sender.isSome = true)
    (_hpay : v1.gasData.payment.isSome = true)
    (_hprice : v1.gasData.price.isSome = true)
    (_hbudget : v1.gasData.budget.isSome = true)
    (howner : v1.gasData.owner = none)
    (hsigner : tx.signer = some k)
    (hconv : convertMgoAddressStringToBytes (keypairMgoAddress keccak k) =
      some ow) :
    (transactionBuild keccak tx false).2 = withGasOwner tx v1 ow ∧
    ∀ (keccak2 : List Nat → List Nat) (tx2 : Transaction),
      (transactionBuild keccak2 tx2 true).2 = tx2 := by
  refine ⟨?_, fun keccak2 tx2 => build_onlyKind_no_mutation keccak2 tx2⟩
  have hnone : v1.sender.isNone = false := by
    rcases hv : v1.sender with _ | s
    · rw [hv] at hsender; cases hsender
    · rfl
  unfold transactionBuild
  rw [hv1]
  simp only [hnone, Bool.false_eq_true, if_false, howner, hsigner, hconv]
  rw [buildTail_snd, ← hsigner]
  rfl

/-- C10 witness: the concrete owner-unset state, with the stand-in hash
function. -/
theorem build_false_gas_owner_frame_witness :
    (transactionBuild keccakZero txOwnerUnset false).2 =
      withGasOwner txOwnerUnset v1OwnerUnset (List.replicate 32 0) ∧
    ∀ (keccak2 : List Nat → List Nat) (tx2 : Transaction),
      (transactionBuild keccak2 tx2 true).2 = tx2 :=
  build_false_gas_owner_frame keccakZero txOwnerUnset v1OwnerUnset kpA
    (List.replicate 32 0) rfl rfl rfl rfl rfl rfl rfl (by decide)

/-- C6.  Whenever the transaction-data envelope encodes successfully
(in particular for every envelope the builder produces, which always
carries the V1 variant), the first byte of the SDBE output is the ULEB of
variant index 0. -/
theorem envelope_first_byte (td : TransactionData) (bs : List Nat)
    (h : encTransactionData td = .ok bs) : bs.head? = some 0 := by
  unfold encTransactionData encodeEnum at h
  rcases hv : td.v1 with _ | v1 <;> rw [hv] at h
  · exact Except.noConfusion
      (show (Except.error Err.noEnumFieldSet : Except Err (List Nat)) =
        .ok bs from h)
  · have h' : (encTransactionDataV1 v1).map (fun b => uleb 0 ++ b) =
      .ok bs := h
    rcases henc : encTransactionDataV1 v1 with e | payload <;> rw [henc] at h'
    · exact Except.noConfusion
        (show (Except.error e : Except Err (List Nat)) = .ok bs from h')
    · have h'' : Except.ok (uleb 0 ++ payload) = (Except.ok bs :
        Except Err (List Nat)) := h'
      injection h'' with hbs
      rw [← hbs]
      rfl

/-- C6 witness: the fresh builder's envelope encodes to bytes whose
first byte is 0. -/
theorem envelope_first_byte_witness :
    encTransactionData tdNew = .ok [0, 0, 0, 0, 0] ∧
    ([0, 0, 0, 0, 0] : List Nat).head? = some 0 :=
  ⟨by decide, envelope_first_byte tdNew [0, 0, 0, 0, 0] (by decide)⟩

/-- C7 (behaviour at the failing scheme): for every secp256k1-scheme
keypair (flag 1) and every message, `SignPersonalMessage` emits the
hard-coded Ed25519 flag byte 0 as the leading byte of the envelope — not
the keypair's own scheme flag. -/
theorem personal_message_flag_hardcoded (keccak : List Nat → List Nat)
    (k : Keypair) (msg : List Nat) (h : k.scheme = 1) :
    (signPersonalMessage keccak k msg).head? = some 0 ∧
    (signPersonalMessage keccak k msg).head? ≠ some k.scheme := by
  constructor
  · rfl
  · rw [show (signPersonalMessage keccak k msg).head? = some 0 from rfl, h]
    simp

/-- C7 witness at a concrete secp256k1 keypair and message. -/
theorem personal_message_flag_hardcoded_witness :
    (signPersonalMessage keccakZero kpB [104, 105]).head? = some 0 ∧
    (signPersonalMessage keccakZero kpB [104, 105]).head? ≠ some kpB.scheme :=
  personal_message_flag_hardcoded keccakZero kpB [104, 105] rfl

/-- C8 (behaviour at the failing input): on a DER signature whose `r`
integer has a 31-byte minimal form, `parseDERSignature` returns the 63-byte
concatenation of the stripped integers — not a fixed-width 64-byte
`r || s` layout. -/
theorem parseDER_not_fixed_width :
    parseDERSignature derShortR =
      (127 :: List.replicate 30 1) ++ (16 :: List.replicate 31 2) ∧
    (parseDERSignature derShortR).length = 63 ∧ (63 : Nat) ≠ 64 := by
  refine ⟨by decide, by decide, by decide⟩

/-- C9 counterexample.  `encodeEnum` does not refuse a value with more
than one variant set: it encodes it.  With a pointer-kinded first set
variant the later set variant is silently dropped; with the
interface-kinded GasCoin variant of `Argument` first, the whole-struct
re-encode appends the later set Input variant's two bytes after the ULEB
tag. -/
theorem encodeEnum_multiple_set_not_refused :
    encodeEnum [ptrField (some (.ok [7])), ptrField (some (.ok [9]))] =
      .ok [0, 7] ∧
    encArgument { gasCoin := some (), input := some 7, result := none,
                  nestedResult := none } = .ok [0, 7, 0] := by
  exact ⟨by decide, by decide⟩

theorem encodeEnumFrom_all_none (i : Nat) (all fields : List EnumField)
    (h : ∀ f ∈ fields, f.payload = none) :
    encodeEnumFrom i all fields = .error .noEnumFieldSet := by
  induction fields generalizing i with
  | nil => rfl
  | cons f rest ih =>
      have hf := h f (List.mem_cons_self f rest)
      simp only [encodeEnumFrom, hf]
      exact ih (i + 1) (fun x hx => h x (List.mem_cons_of_mem f hx))

theorem encodeEnumFrom_first_some (i : Nat) (all pre : List EnumField)
    (f : EnumField) (p : Except Err (List Nat)) (post : List EnumField)
    (h : ∀ g ∈ pre, g.payload = none) (hf : f.payload = some p) :
    encodeEnumFrom i all (pre ++ f :: post) =
      (if f.isInterface then encStructOfEnum all else p).map
        (fun b => uleb (i + pre.length) ++ b) := by
  induction pre generalizing i with
  | nil =>
      simp only [List.nil_append, encodeEnumFrom, hf]
      by_cases hi : f.isInterface <;> simp [hi]
  | cons g rest ih =>
      have hg := h g (List.mem_cons_self g rest)
      simp only [List.cons_append, encodeEnumFrom, hg]
      rw [show rest.append (f :: post) = rest ++ f :: post from rfl]
      rw [ih (i + 1) (fun x hx => h x (List.mem_cons_of_mem g hx))]
      simp only [List.length_cons,
        show i + 1 + rest.length = i + (rest.length + 1) from by omega]

/-- C9 (amended).  The enum encoder refuses encoding exactly when zero
variants are set.  When at least one variant is set it writes the ULEB
of the FIRST set variant's declaration-order index; the payload that
follows is that variant's own encoding when its field is a pointer (any
later set variants are silently ignored), but the struct encoding of the
whole enum value when its field is an interface (so the bytes of every
set variant are appended, later ones included).  With exactly one variant
set this is that variant's index and payload in both kinds. -/
theorem encodeEnum_first_set_wins :
    (∀ fields, (∀ f ∈ fields, f.payload = none) →
      encodeEnum fields = .error .noEnumFieldSet) ∧
    (∀ pre (f : EnumField) (p : Except Err (List Nat)) post,
      (∀ g ∈ pre, g.payload = none) → f.payload = some p →
      encodeEnum (pre ++ f :: post) =
        (if f.isInterface then encStructOfEnum (pre ++ f :: post) else p).map
          (fun b => uleb pre.length ++ b)) := by
  constructor
  · intro fields h
    exact encodeEnumFrom_all_none 0 fields fields h
  · intro pre f p post h hf
    have h0 := encodeEnumFrom_first_some 0 (pre ++ f :: post) pre f p post h hf
    simpa using h0

/-- C9 witness: a pointer variant set at index 1 after one nil field
encodes as ULEB(1) followed by its payload alone. -/
theorem encodeEnum_first_set_wins_witness :
    encodeEnum [ptrField none, ptrField (some (Except.ok [5]))] =
      .ok [1, 5] := by
  have h := encodeEnum_first_set_wins.2 [ptrField none]
    (ptrField (some (Except.ok [5]))) (Except.ok [5]) []
    (by intro g hg; simp only [List.mem_singleton] at hg; subst hg; rfl) rfl
  rw [show ([ptrField none] ++ ptrField (some (Except.ok [5])) :: [] :
    List EnumField) = [ptrField none, ptrField (some (Except.ok [5]))]
    from rfl] at h
  rw [h]
  decide

/-- C5.  Whenever `ToMgoExecuteTransactionBlockRequest` produces a
request: with a sponsor signer set the request carries exactly two
serialized signatures, the sponsor's first and the main signer's second;
without a sponsor it carries exactly the main signer's one. -/
theorem submit_signature_order (keccak : List Nat → List Nat)
    (tx : Transaction) (k : Keypair) (options : MgoTransactionBlockOptions)
    (rt : List Nat) (req : MgoExecuteTransactionBlockRequest)
    (hsigner : tx.signer = some k)
    (hreq : toMgoExecuteTransactionBlockRequest keccak tx options rt =
      .ok req) :
    (∀ k2, tx.sponsoredSigner = some k2 →
       req.signature = [signTransactionBlock keccak k2 req.txBytes,
                        signTransactionBlock keccak k req.txBytes]) ∧
    (tx.sponsoredSigner = none →
       req.signature = [signTransactionBlock keccak k req.txBytes]) := by
  unfold toMgoExecuteTransactionBlockRequest at hreq
  rw [hsigner] at hreq
  rcases hb : (buildTransaction keccak tx).1 with e | b64 <;>
    simp only [hb] at hreq
  · cases hreq
  · injection hreq with hlit
    subst hlit
    constructor
    · intro k2 hk2
      simp only [hk2]
      rfl
    · intro hk2
      simp only [hk2]
      rfl

/-- C5 witness: a concrete buildable sponsored transaction yields the
(sponsor, sender) signature pair; a concrete unsponsored one yields only
the sender's signature. -/
theorem submit_signature_order_witness :
    (∃ req, toMgoExecuteTransactionBlockRequest keccakZero txSponsored
        optsW [] = .ok req ∧
      req.signature = [signTransactionBlock keccakZero kpB req.txBytes,
                       signTransactionBlock keccakZero kpA req.txBytes]) ∧
    (∃ req, toMgoExecuteTransactionBlockRequest keccakZero txUnsponsored
        optsW [] = .ok req ∧
      req.signature = [signTransactionBlock keccakZero kpA req.txBytes]) := by
  constructor
  · rcases hreq : toMgoExecuteTransactionBlockRequest keccakZero txSponsored
        optsW [] with e | req
    · have hok : exceptIsOk (toMgoExecuteTransactionBlockRequest keccakZero
        txSponsored optsW []) = true := by decide
      rw [hreq] at hok
      cases hok
    · exact ⟨req, rfl,
        (submit_signature_order keccakZero txSponsored kpA optsW [] req rfl
          hreq).1 kpB rfl⟩
  · rcases hreq : toMgoExecuteTransactionBlockRequest keccakZero
        txUnsponsored optsW [] with e | req
    · have hok : exceptIsOk (toMgoExecuteTransactionBlockRequest keccakZero
        txUnsponsored optsW []) = true := by decide
      rw [hreq] at hok
      cases hok
    · exact ⟨req, rfl,
        (submit_signature_order keccakZero txUnsponsored kpA optsW [] req rfl
          hreq).2 rfl⟩

/-- C2 (evaluated at the failing input): the JSON round trip of a
builder-producible tree holding an owned object input with a non-zero
digest and a gas payment list succeeds, yet re-encoding the reconstructed
tree does NOT reproduce the original SDBE bytes: the deserializer replaces
the owned-object digest (and the gas payment's version and digest) with
empty values, as witnessed by the first input's digest collapsing from 32
bytes to none. -/
theorem json_roundtrip_not_byte_identical :
    exceptIsOk (jsonRoundTrip c2Tree) = true ∧
    exceptIsOk (encTransactionData c2Tree) = true ∧
    roundTripEncode c2Tree ≠ encTransactionData c2Tree ∧
    firstImmDigest c2Tree = some (List.replicate 32 2) ∧
    (match jsonRoundTrip c2Tree with
     | .ok td' => firstImmDigest td'
     | .error _ => none) = some [] := by
  exact ⟨by decide, by decide, by decide, by decide, by decide⟩

end MgoSdk
